import Mathlib

/-!
Verification of the alert-rule sqlstore core (pkg/models/alert.go and
pkg/services/sqlstore/alert.go): a shallow embedding of the data model and
of the operations SaveAlerts (reconciliation), SetAlertState, PauseAlert,
PauseAllAlerts, DeleteAlert, GetAlertById, GetAllAlerts and
HandleAlertsQuery, over an explicit relational store.

Modelling conventions:
- int64 fields are Int (ids and counters that the store assigns and only
  increments are Nat); time.Time is Nat with the zero time as 0.
- simplejson documents are modelled structurally: only the pieces the code
  inspects ("alertRuleTags", "notifications") are exposed, the remainder is
  kept as its canonical encoding, so Encode-equality is structural equality
  and Encode never fails.
- xorm's Update skips zero-valued columns unless forced with MustCols; this
  is documented by the source itself ("without this space, xorm skips
  updating this field") and by the spec (§9) and is modelled explicitly in
  xormUpdateAlert.  Insert assigns the store's next free id (the spec's
  data model: id is store-assigned).
- SQL errors cannot occur, so transactions never roll back and the fallible
  Go signatures degenerate to total functions; operations that can fail for
  non-storage reasons return Except String with the source's error text.
-/

namespace Grafana

/-- Alert rule runtime states (pkg/models/alert.go): the Go type
AlertStateType is a string; the states are six string constants. -/
abbrev AlertStateType := String

/-- AlertStateNoData constant from pkg/models/alert.go. -/
def AlertStateNoData : AlertStateType := "no_data"

/-- AlertStatePaused constant from pkg/models/alert.go. -/
def AlertStatePaused : AlertStateType := "paused"

/-- AlertStateAlerting constant from pkg/models/alert.go. -/
def AlertStateAlerting : AlertStateType := "alerting"

/-- AlertStateOK constant from pkg/models/alert.go. -/
def AlertStateOK : AlertStateType := "ok"

/-- AlertStatePending constant from pkg/models/alert.go. -/
def AlertStatePending : AlertStateType := "pending"

/-- AlertStateUnknown constant from pkg/models/alert.go. -/
def AlertStateUnknown : AlertStateType := "unknown"

/-- AlertStateType.IsValid from pkg/models/alert.go. -/
def stateIsValid (s : AlertStateType) : Bool :=
  s == AlertStateOK || s == AlertStateNoData || s == AlertStatePaused ||
  s == AlertStatePending || s == AlertStateAlerting || s == AlertStateUnknown

/-- The opaque settings document (a simplejson.Json in Go).  Only the parts
the code reads are structured: the optional "alertRuleTags" object (a list
of key/value pairs; Go map keys are unique, and iteration order is fixed by
the list), the optional "notifications" array of channel uid strings, and
the rest of the document, kept abstractly as its canonical JSON encoding
(a String), so that Settings.Encode is injective and total. -/
structure AlertSettings where
  alertRuleTags : Option (List (String × String))
  notifications : Option (List String)
  rest : String
deriving DecidableEq

/-- The models.Alert struct (pkg/models/alert.go), field for field.
For is the parsed for-duration (a time.Duration, i.e. int64 nanoseconds).
EvalData is an opaque document modelled by its encoding; nil pointers are
none. -/
structure Alert where
  Id : Nat
  Version : Int
  OrgId : Int
  DashboardId : Int
  PanelId : Int
  Name : String
  Message : String
  Severity : String
  State : AlertStateType
  Handler : Int
  Silenced : Bool
  ExecutionError : String
  Frequency : Int
  For : Int
  EvalData : Option String
  NewStateDate : Nat
  StateChanges : Nat
  Created : Nat
  Updated : Nat
  Settings : Option AlertSettings
deriving DecidableEq

/-- Alert.ValidToSave from pkg/models/alert.go. -/
def Alert.ValidToSave (a : Alert) : Bool :=
  a.DashboardId != 0 && a.OrgId != 0 && a.PanelId != 0

/-- Alert.ShouldUpdateState from pkg/models/alert.go. -/
def Alert.ShouldUpdateState (a : Alert) (newState : AlertStateType) : Bool :=
  a.State != newState

/-- Alert.ContainsUpdates from pkg/models/alert.go: name or message differ,
or, when both settings documents are non-nil, their encodings differ.
Encoding errors cannot occur in the model (the encoding is total), so the
error branch that returns false is unreachable.  State is not compared. -/
def Alert.ContainsUpdates (self other : Alert) : Bool :=
  (self.Name != other.Name) || (self.Message != other.Message) ||
    (match self.Settings, other.Settings with
     | some s1, some s2 => decide (s1 ≠ s2)
     | _, _ => false)

/-- Alert.GetTagsFromSettings from pkg/models/alert.go: the entries of the
"alertRuleTags" object if present, else the empty list. -/
def Alert.GetTagsFromSettings (a : Alert) : List (String × String) :=
  match a.Settings with
  | some st => st.alertRuleTags.getD []
  | none => []

/-- Alert.GetNotificationsFromSettings from pkg/models/alert.go: the uid
entries of the "notifications" array if present, else the empty list. -/
def Alert.GetNotificationsFromSettings (a : Alert) : List String :=
  match a.Settings with
  | some st => st.notifications.getD []
  | none => []

/-- A row of the tag table: (key, value) with a store-assigned id. -/
structure Tag where
  Id : Nat
  Key : String
  Value : String
deriving DecidableEq

/-- A row of the alert_notification channel registry (external
collaborator): channels are resolved by (org_id, uid). -/
structure NotificationChannel where
  Id : Nat
  OrgId : Int
  Uid : String
deriving DecidableEq

/-- The dashboard projection joined by HandleAlertsQuery (external
collaborator): id, uid and slug. -/
structure Dashboard where
  Id : Int
  Uid : String
  Slug : String
deriving DecidableEq

/-- The relational store: the alert table plus its dependent tables.
alert_rule_tag and alert_rule_notification rows are (alert_id, other_id)
pairs; annotation and alert_notification_state rows are represented by
their alert_id foreign key, the only column the code here touches.
nextAlertId and nextTagId are the auto-increment sequences. -/
structure Store where
  alerts : List Alert
  nextAlertId : Nat
  tags : List Tag
  nextTagId : Nat
  ruleTags : List (Nat × Nat)
  ruleNotifs : List (Nat × Nat)
  annotations : List Nat
  notifStates : List Nat
  notifChannels : List NotificationChannel
  dashboards : List Dashboard
deriving DecidableEq

/-- Modelled from the spec (§9 "Blank-space sentinel", §4.2) and the
source's own comment "without this space, xorm skips updating this field":
xorm's Update writes only the columns whose new value is non-zero (zero is
0, the empty string, false, the zero time, nil), plus the columns forced
with MustCols; updateAlerts and UpdateAlert force "message" and "for".
The primary key is the WHERE column and is never rewritten. -/
def xormUpdateAlert (mustMessageFor : Bool) (old upd : Alert) : Alert :=
  { Id := old.Id
    Version := if upd.Version = 0 then old.Version else upd.Version
    OrgId := if upd.OrgId = 0 then old.OrgId else upd.OrgId
    DashboardId := if upd.DashboardId = 0 then old.DashboardId else upd.DashboardId
    PanelId := if upd.PanelId = 0 then old.PanelId else upd.PanelId
    Name := if upd.Name = "" then old.Name else upd.Name
    Message := if mustMessageFor then upd.Message
               else if upd.Message = "" then old.Message else upd.Message
    Severity := if upd.Severity = "" then old.Severity else upd.Severity
    State := if upd.State = "" then old.State else upd.State
    Handler := if upd.Handler = 0 then old.Handler else upd.Handler
    Silenced := if upd.Silenced = false then old.Silenced else upd.Silenced
    ExecutionError := if upd.ExecutionError = "" then old.ExecutionError else upd.ExecutionError
    Frequency := if upd.Frequency = 0 then old.Frequency else upd.Frequency
    For := if mustMessageFor then upd.For
           else if upd.For = 0 then old.For else upd.For
    EvalData := if upd.EvalData = none then old.EvalData else upd.EvalData
    NewStateDate := if upd.NewStateDate = 0 then old.NewStateDate else upd.NewStateDate
    StateChanges := if upd.StateChanges = 0 then old.StateChanges else upd.StateChanges
    Created := if upd.Created = 0 then old.Created else upd.Created
    Updated := if upd.Updated = 0 then old.Updated else upd.Updated
    Settings := if upd.Settings = none then old.Settings else upd.Settings }

/-- First alert row with the given id (xorm Session.ID(...).Get). -/
def findAlert (s : Store) (id : Nat) : Option Alert :=
  s.alerts.find? (fun a => decide (a.Id = id))

/-- GetAlertById from pkg/services/sqlstore/alert.go.  The source checks
the found flag before the error; storage errors cannot occur here.  The
stored row is returned verbatim. -/
def GetAlertById (s : Store) (id : Nat) : Except String Alert :=
  match findAlert s id with
  | none => .error "could not find alert"
  | some a => .ok a

/-- GetAllAlertQueryHandler from pkg/services/sqlstore/alert.go:
select * from alert, returned verbatim. -/
def GetAllAlerts (s : Store) : List Alert :=
  s.alerts

/-- deleteAlertByIdInternal from pkg/services/sqlstore/alert.go: delete the
alert row and all dependent rows (annotation, alert_notification_state,
alert_rule_tag, alert_rule_notification) keyed by this alert id. -/
def deleteAlertByIdInternal (alertId : Nat) (s : Store) : Store :=
  { s with
    alerts := s.alerts.filter (fun a => decide (a.Id ≠ alertId))
    annotations := s.annotations.filter (fun aid => decide (aid ≠ alertId))
    notifStates := s.notifStates.filter (fun aid => decide (aid ≠ alertId))
    ruleTags := s.ruleTags.filter (fun p => decide (p.1 ≠ alertId))
    ruleNotifs := s.ruleNotifs.filter (fun p => decide (p.1 ≠ alertId)) }

/-- Modelled from the spec: EnsureTagsExist (called by insertTags) is not
under src/; the spec (§4.3, §6) specifies it as an idempotent
create-or-fetch by (key, value) identity, returning the persisted tag for
each proposed tag in order. -/
def ensureTagsExist (s : Store) : List (String × String) → (List Tag × Store)
  | [] => ([], s)
  | kv :: rest =>
    match s.tags.find? (fun t => decide (t.Key = kv.1 ∧ t.Value = kv.2)) with
    | some t =>
      let (l, s1) := ensureTagsExist s rest
      (t :: l, s1)
    | none =>
      let t : Tag := ⟨s.nextTagId, kv.1, kv.2⟩
      let (l, s1) := ensureTagsExist
        { s with tags := s.tags ++ [t], nextTagId := s.nextTagId + 1 } rest
      (t :: l, s1)

/-- insertTags from pkg/services/sqlstore/alert.go: ensure the tag rows
exist, then insert one alert_rule_tag link per returned tag, in order.
(The Go nil-check on the slice is vacuous here: GetTagsFromSettings always
returns a non-nil slice.) -/
def insertTags (s : Store) (proposed : List (String × String)) (alertId : Nat) : Store :=
  let (ts, s1) := ensureTagsExist s proposed
  { s1 with ruleTags := s1.ruleTags ++ ts.map (fun t => (alertId, t.Id)) }

/-- insertNotifications from pkg/services/sqlstore/alert.go: for each uid,
INSERT ... SELECT inserts one alert_rule_notification link per channel row
matching (org_id, uid); a uid that resolves to no channel inserts
nothing. -/
def insertNotifications (s : Store) (alertId : Nat) (orgId : Int) :
    List String → Store
  | [] => s
  | uid :: rest =>
    insertNotifications
      { s with ruleNotifs := (s.ruleNotifs ++
          ((s.notifChannels.filter
            (fun ch => decide (ch.OrgId = orgId ∧ ch.Uid = uid))).map
            (fun ch => (alertId, ch.Id)))) }
      alertId orgId rest

/-- The link-regeneration tail of the updateAlerts loop body: delete all
alert_rule_tag links of the rule and re-insert from the settings document,
then the same for alert_rule_notification links, resolving uids under the
incoming alert's org id. -/
def regenLinks (alertId : Nat) (alert : Alert) (s : Store) : Store :=
  let s1 := { s with ruleTags := s.ruleTags.filter (fun p => decide (p.1 ≠ alertId)) }
  let s2 := insertTags s1 alert.GetTagsFromSettings alertId
  let s3 := { s2 with ruleNotifs := s2.ruleNotifs.filter (fun p => decide (p.1 ≠ alertId)) }
  insertNotifications s3 alertId alert.OrgId alert.GetNotificationsFromSettings

/-- One iteration of the loop body of updateAlerts
(pkg/services/sqlstore/alert.go): find an existing alert of the dashboard
with the same panel id; if found, copy its id onto the incoming alert and,
only when ContainsUpdates holds, stamp updated, copy the persisted state
and update the row (MustCols "message", "for"); if not found, stamp
updated, created, newStateDate, set state Unknown and insert (the id is
store-assigned).  In both cases regenerate tag and notification links. -/
def processAlert (existingAlerts : List Alert) (now : Nat) (alert : Alert) (s : Store) : Store :=
  match existingAlerts.find? (fun k => decide (alert.PanelId = k.PanelId)) with
  | some k =>
    let alert1 := { alert with Id := k.Id }
    let s1 :=
      if k.ContainsUpdates alert1 then
        let alert2 := { alert1 with Updated := now, State := k.State }
        { s with alerts := (s.alerts.map
            (fun r => if r.Id = alert1.Id then xormUpdateAlert true r alert2 else r)) }
      else s
    regenLinks alert1.Id alert1 s1
  | none =>
    let alert2 := { alert with
        Id := s.nextAlertId, Updated := now, Created := now,
        State := AlertStateUnknown, NewStateDate := now }
    let s1 := { s with alerts := s.alerts ++ [alert2], nextAlertId := s.nextAlertId + 1 }
    regenLinks alert2.Id alert2 s1

/-- updateAlerts from pkg/services/sqlstore/alert.go: the loop over the
incoming alerts. -/
def updateAlerts (existingAlerts : List Alert) (now : Nat) (cmdAlerts : List Alert)
    (s : Store) : Store :=
  cmdAlerts.foldl (fun acc a => processAlert existingAlerts now a acc) s

/-- deleteMissingAlerts from pkg/services/sqlstore/alert.go: every existing
alert whose panel id appears in no incoming alert is deleted with the full
dependent-row cascade. -/
def deleteMissingAlerts (existingAlerts cmdAlerts : List Alert) (s : Store) : Store :=
  existingAlerts.foldl
    (fun acc e =>
      if cmdAlerts.any (fun k => decide (e.PanelId = k.PanelId)) then acc
      else deleteAlertByIdInternal e.Id acc)
    s

/-- GetAlertsByDashboardId2 from pkg/services/sqlstore/alert.go. -/
def GetAlertsByDashboardId2 (dashboardId : Int) (s : Store) : List Alert :=
  s.alerts.filter (fun a => decide (a.DashboardId = dashboardId))

/-- models.SaveAlertsCommand. -/
structure SaveAlertsCommand where
  DashboardId : Int
  UserId : Int
  OrgId : Int
  Alerts : List Alert
deriving DecidableEq

/-- SaveAlerts from pkg/services/sqlstore/alert.go: load the dashboard's
existing alerts, run updateAlerts, then deleteMissingAlerts, in one
transaction.  The injected clock value now stands for timeNow() during the
operation. -/
def SaveAlerts (now : Nat) (cmd : SaveAlertsCommand) (s : Store) : Store :=
  let existingAlerts := GetAlertsByDashboardId2 cmd.DashboardId s
  let s1 := updateAlerts existingAlerts now cmd.Alerts s
  deleteMissingAlerts existingAlerts cmd.Alerts s1

/-- models.SetAlertStateCommand (the Result field is the returned rule). -/
structure SetAlertStateCommand where
  AlertId : Nat
  OrgId : Int
  State : AlertStateType
  Error : String
  EvalData : Option String
deriving DecidableEq

/-- SetAlertState from pkg/services/sqlstore/alert.go: NotFound if the id
does not exist; ErrCannotChangeStateOnPausedAlert if the current state is
paused; ErrRequiresNewState if the new state equals the current one;
otherwise set the state, bump stateChanges, stamp newStateDate, store
evalData, store the error text (the single-space sentinel when empty), and
update the row (no MustCols here).  Returns the updated store and the
in-memory rule assigned to cmd.Result. -/
def SetAlertState (now : Nat) (cmd : SetAlertStateCommand) (s : Store) :
    Except String (Store × Alert) :=
  match findAlert s cmd.AlertId with
  | none => .error "Could not find alert"
  | some alert =>
    if alert.State = AlertStatePaused then
      .error "Cannot change state on pause alert"
    else if alert.State = cmd.State then
      .error "update alert state requires a new state"
    else
      let alert1 := { alert with
        State := cmd.State
        StateChanges := alert.StateChanges + 1
        NewStateDate := now
        EvalData := cmd.EvalData
        ExecutionError := if cmd.Error = "" then " " else cmd.Error }
      let s1 := { s with alerts := (s.alerts.map
          (fun r => if r.Id = alert1.Id then xormUpdateAlert false r alert1 else r)) }
      .ok (s1, alert1)

/-- models.PauseAlertCommand (ResultCount is returned). -/
structure PauseAlertCommand where
  OrgId : Int
  AlertIds : List Nat
  Paused : Bool
deriving DecidableEq

/-- PauseAlert from pkg/services/sqlstore/alert.go: validation error on an
empty id list, else one raw UPDATE setting state (paused or unknown) and
new_state_date for every row whose id is listed; returns the number of
rows affected. -/
def PauseAlert (now : Nat) (cmd : PauseAlertCommand) (s : Store) :
    Except String (Store × Nat) :=
  if cmd.AlertIds = [] then .error "command contains no alertids"
  else
    let newState := if cmd.Paused then AlertStatePaused else AlertStateUnknown
    let affected := (s.alerts.filter (fun a => cmd.AlertIds.contains a.Id)).length
    let s1 := { s with alerts := (s.alerts.map (fun a =>
        if cmd.AlertIds.contains a.Id then
          { a with State := newState, NewStateDate := now }
        else a)) }
    .ok (s1, affected)

/-- PauseAllAlerts from pkg/services/sqlstore/alert.go: one raw UPDATE over
every alert row. -/
def PauseAllAlerts (now : Nat) (paused : Bool) (s : Store) : Store × Nat :=
  let newState := if paused then AlertStatePaused else AlertStateUnknown
  ({ s with alerts := (s.alerts.map
      (fun a => { a with State := newState, NewStateDate := now })) },
   s.alerts.length)

/-- deleteAlertDefinition from pkg/services/sqlstore/alert.go: delete every
alert of the dashboard through deleteAlertByIdInternal (used on dashboard
deletion). -/
def deleteAlertDefinition (dashboardId : Int) (s : Store) : Store :=
  (s.alerts.filter (fun a => decide (a.DashboardId = dashboardId))).foldl
    (fun acc a => deleteAlertByIdInternal a.Id acc) s

/-- models.DeleteAlertCommand. -/
structure DeleteAlertCommand where
  Id : Nat
deriving DecidableEq

/-- DeleteAlert from pkg/services/sqlstore/alert.go. -/
def DeleteAlert (cmd : DeleteAlertCommand) (s : Store) : Store :=
  deleteAlertByIdInternal cmd.Id s

/-- models.GetAlertsQuery: the search filter.  User is flattened to the
fields the handler reads (the org role). -/
structure GetAlertsQuery where
  OrgId : Int
  State : List String
  DashboardIDs : List Int
  PanelId : Int
  Limit : Nat
  Query : String
  OrgRole : String
  StandaloneAlertsEnabled : Bool
deriving DecidableEq

/-- models.AlertListItemDTO, without the eval_date column (selected by the
SQL but not part of the modelled alert row) and the Url field (not
selected at all). -/
structure AlertListItemDTO where
  Id : Nat
  DashboardId : Int
  PanelId : Int
  Name : String
  State : AlertStateType
  NewStateDate : Nat
  EvalData : Option String
  ExecutionError : String
  DashboardUid : String
  DashboardSlug : String
deriving DecidableEq

/-- Go strings.HasPrefix, on the character-list model of strings (the
standard String functions do not reduce inside the kernel, so the model
uses structural list recursion throughout). -/
def strHasPrefix (s pre : String) : Bool :=
  pre.data.isPrefixOf s.data

/-- Go strings.TrimPrefix: drops the prefix when present. -/
def strTrimPrefix (s pre : String) : String :=
  if strHasPrefix s pre then ⟨s.data.drop pre.data.length⟩ else s

/-- Go unicode.IsSpace restricted to the ASCII whitespace the queries can
contain. -/
def isSpaceChar (c : Char) : Bool :=
  c = ' ' || c = '\t' || c = '\n' || c = '\r'

/-- Go strings.TrimSpace. -/
def strTrimSpace (s : String) : String :=
  ⟨((s.data.dropWhile isSpaceChar).reverse.dropWhile isSpaceChar).reverse⟩

/-- Character comparison for string ordering, via code points. -/
def charListLe : List Char → List Char → Bool
  | [], _ => true
  | _ :: _, [] => false
  | a :: as, b :: bs => if a = b then charListLe as bs else decide (a < b)

/-- String ordering for ORDER BY name ASC (the SQL collation is outside
the source; code-point order stands in for it). -/
def strLe (a b : String) : Bool :=
  charListLe a.data b.data

/-- The state clause of HandleAlertsQuery: tokens are OR-combined, a token
with the not_ prefix matches rows whose state differs from the remainder,
any other token matches rows with exactly that state. -/
def stateTokenCond (tokens : List String) (st : String) : Bool :=
  tokens.any (fun v =>
    if strHasPrefix v "not_" then st != strTrimPrefix v "not_" else st == v)

/-- Substring occurrence on character lists. -/
def listInfixOf (n : List Char) : List Char → Bool
  | [] => n.isEmpty
  | c :: t => n.isPrefixOf (c :: t) || listInfixOf n t

/-- SQL LIKE with wildcards on both sides, modelled as substring match. -/
def substrOf (needle hay : String) : Bool :=
  listInfixOf needle.data hay.data

/-- Insertion into a list sorted by name ascending (ORDER BY name ASC). -/
def insertByName (x : Alert × Option Dashboard) :
    List (Alert × Option Dashboard) → List (Alert × Option Dashboard)
  | [] => [x]
  | y :: ys => if strLe x.1.Name y.1.Name then x :: y :: ys else y :: insertByName x ys

/-- ORDER BY name ASC, as an insertion sort (SQL fixes only the key). -/
def sortByName : List (Alert × Option Dashboard) → List (Alert × Option Dashboard)
  | [] => []
  | x :: xs => insertByName x (sortByName xs)

/-- The WHERE clause of HandleAlertsQuery, one alert row at a time: org
filter, optional name-substring filter, optional dashboard-id set filter,
optional panel filter, the state clause (skipped when the token list is
empty or its first token is "all"), and the dashboard-visibility predicate
(skipped for the admin org role). -/
def queryCond (q : GetAlertsQuery) (permFilter : Int → Bool) (a : Alert) : Bool :=
  decide (a.OrgId = q.OrgId) &&
  (if 0 < (strTrimSpace q.Query).length then substrOf q.Query a.Name else true) &&
  (if q.DashboardIDs = [] then true else q.DashboardIDs.contains a.DashboardId) &&
  (if q.PanelId = 0 then true else decide (a.PanelId = q.PanelId)) &&
  (if q.State = [] then true
   else if q.State.head? = some "all" then true
   else stateTokenCond q.State a.State) &&
  (if q.OrgRole = "Admin" then true else permFilter a.DashboardId)

/-- The SELECT projection of HandleAlertsQuery: alert columns plus the
joined dashboard uid and slug (empty for the null side of the outer
join), with the single-space executionError sentinel normalized. -/
def queryDTO (a : Alert) (dOpt : Option Dashboard) : AlertListItemDTO :=
  { Id := a.Id
    DashboardId := a.DashboardId
    PanelId := a.PanelId
    Name := a.Name
    State := a.State
    NewStateDate := a.NewStateDate
    EvalData := a.EvalData
    ExecutionError := if a.ExecutionError = " " then "" else a.ExecutionError
    DashboardUid := (dOpt.map Dashboard.Uid).getD ""
    DashboardSlug := (dOpt.map Dashboard.Slug).getD "" }

/-- HandleAlertsQuery from pkg/services/sqlstore/alert.go.  The dashboard
join is INNER unless standalone alerts are enabled (then LEFT OUTER, with
empty uid/slug for the missing side).  writeDashboardPermissionFilter is
not under src/ and is modelled from the spec as an injected
dashboard-visibility predicate, applied unless the user's org role is the
admin role.  The state clause applies only when the token list is nonempty
and its first token is not "all".  The single-space executionError
sentinel is normalized to the empty string on every output row. -/
def HandleAlertsQuery (q : GetAlertsQuery) (permFilter : Int → Bool) (s : Store) :
    List AlertListItemDTO :=
  let joined := s.alerts.filterMap (fun a =>
    match s.dashboards.find? (fun d => decide (d.Id = a.DashboardId)) with
    | some d => some (a, some d)
    | none =>
      if q.StandaloneAlertsEnabled then some (a, (none : Option Dashboard)) else none)
  let rows := joined.filter (fun row => queryCond q permFilter row.1)
  let sorted := sortByName rows
  let limited := if q.Limit = 0 then sorted else sorted.take q.Limit
  limited.map (fun row => queryDTO row.1 row.2)

end Grafana

namespace Grafana

/-! ### Shared helper lemmas -/

/-- No row of any table references alert id i: the post-state of a cascade
delete. -/
def AlertIdFree (i : Nat) (s : Store) : Prop :=
  (∀ r ∈ s.alerts, r.Id ≠ i) ∧ (∀ a ∈ s.annotations, a ≠ i) ∧
  (∀ a ∈ s.notifStates, a ≠ i) ∧ (∀ p ∈ s.ruleTags, p.1 ≠ i) ∧
  (∀ p ∈ s.ruleNotifs, p.1 ≠ i)

instance (i : Nat) (s : Store) : Decidable (AlertIdFree i s) := by
  unfold AlertIdFree
  infer_instance

theorem alertIdFree_delete_self (i : Nat) (s : Store) :
    AlertIdFree i (deleteAlertByIdInternal i s) := by
  unfold AlertIdFree deleteAlertByIdInternal
  refine ⟨?_, ?_, ?_, ?_, ?_⟩ <;> intro x hx <;>
    simpa using (List.mem_filter.1 hx).2

theorem alertIdFree_delete (i j : Nat) (s : Store) (h : AlertIdFree i s) :
    AlertIdFree i (deleteAlertByIdInternal j s) := by
  obtain ⟨h1, h2, h3, h4, h5⟩ := h
  unfold deleteAlertByIdInternal
  exact ⟨fun x hx => h1 x (List.mem_filter.1 hx).1,
         fun x hx => h2 x (List.mem_filter.1 hx).1,
         fun x hx => h3 x (List.mem_filter.1 hx).1,
         fun x hx => h4 x (List.mem_filter.1 hx).1,
         fun x hx => h5 x (List.mem_filter.1 hx).1⟩

theorem deleteMissingAlerts_cons (e : Alert) (tl ds : List Alert) (s : Store) :
    deleteMissingAlerts (e :: tl) ds s =
      deleteMissingAlerts tl ds
        (if ds.any (fun k => decide (e.PanelId = k.PanelId)) then s
         else deleteAlertByIdInternal e.Id s) := rfl

theorem alertIdFree_deleteMissing (i : Nat) (ex ds : List Alert) (s : Store)
    (h : AlertIdFree i s) : AlertIdFree i (deleteMissingAlerts ex ds s) := by
  induction ex generalizing s with
  | nil => exact h
  | cons e tl ih =>
    rw [deleteMissingAlerts_cons]
    split
    · exact ih s h
    · exact ih _ (alertIdFree_delete i e.Id s h)

theorem deleteMissing_establish (ex ds : List Alert) (s : Store) (e : Alert)
    (he : e ∈ ex) (hm : ∀ d ∈ ds, d.PanelId ≠ e.PanelId) :
    AlertIdFree e.Id (deleteMissingAlerts ex ds s) := by
  obtain ⟨l1, l2, rfl⟩ := List.append_of_mem he
  unfold deleteMissingAlerts
  rw [List.foldl_append, List.foldl_cons]
  have hany : ds.any (fun k => decide (e.PanelId = k.PanelId)) = false := by
    simp only [List.any_eq_false, decide_eq_true_eq]
    intro d hd
    exact fun hEq => hm d hd (hEq ▸ rfl)
  rw [if_neg (by simp [hany])]
  exact alertIdFree_deleteMissing e.Id l2 ds _
    (alertIdFree_delete_self e.Id _)

theorem alertIdFree_delFold (i : Nat) (l : List Alert) (s : Store)
    (h : AlertIdFree i s) :
    AlertIdFree i (l.foldl (fun acc a => deleteAlertByIdInternal a.Id acc) s) := by
  induction l generalizing s with
  | nil => exact h
  | cons e tl ih => exact ih _ (alertIdFree_delete i e.Id s h)

theorem delFold_establish (l : List Alert) (s : Store) (e : Alert) (he : e ∈ l) :
    AlertIdFree e.Id (l.foldl (fun acc a => deleteAlertByIdInternal a.Id acc) s) := by
  obtain ⟨l1, l2, rfl⟩ := List.append_of_mem he
  rw [List.foldl_append, List.foldl_cons]
  exact alertIdFree_delFold e.Id l2 _ (alertIdFree_delete_self e.Id _)

/-- C9: deleting a rule by id, through the API command, through dashboard
deletion, or through reconciliation's removed-from-dashboard path, removes
the rule row and every dependent row (annotation rows,
alert_notification_state rows, alert_rule_tag links,
alert_rule_notification links) referencing it: none remain reachable in
the resulting store. -/
theorem C9_delete_cascade (s : Store) (i : Nat) (dash : Int)
    (cmd : DeleteAlertCommand) (cmd2 : SaveAlertsCommand) (now : Nat) :
    AlertIdFree i (deleteAlertByIdInternal i s) ∧
    DeleteAlert cmd s = deleteAlertByIdInternal cmd.Id s ∧
    (∀ e ∈ s.alerts, e.DashboardId = dash →
       AlertIdFree e.Id (deleteAlertDefinition dash s)) ∧
    (∀ e ∈ GetAlertsByDashboardId2 cmd2.DashboardId s,
       (∀ d ∈ cmd2.Alerts, d.PanelId ≠ e.PanelId) →
       AlertIdFree e.Id (SaveAlerts now cmd2 s)) := by
  refine ⟨alertIdFree_delete_self i s, rfl, ?_, ?_⟩
  · intro e he hdash
    unfold deleteAlertDefinition
    exact delFold_establish _ s e (List.mem_filter.2 ⟨he, by simp [hdash]⟩)
  · intro e he hm
    unfold SaveAlerts
    exact deleteMissing_establish _ _ _ e he hm

end Grafana

namespace Grafana

theorem find?_map_idPreserving (l : List Alert) (g : Alert → Alert)
    (hg : ∀ a, (g a).Id = a.Id) (i : Nat) :
    (l.map g).find? (fun a => decide (a.Id = i)) =
      (l.find? (fun a => decide (a.Id = i))).map g := by
  rw [List.find?_map]
  have hp : ((fun a => decide (a.Id = i)) ∘ g) = (fun a : Alert => decide (a.Id = i)) := by
    funext a
    simp [Function.comp, hg]
  rw [hp]

theorem findAlert_eq_id (s : Store) (i : Nat) (a : Alert)
    (h : findAlert s i = some a) : a.Id = i := by
  have := List.find?_some h
  simpa using this

/-! ### C10: SetAlertState and GetAlertById ignore the supplied org -/

/-- C10: SetAlertState locates and updates the rule by id alone, so two
calls differing only in the supplied OrgId produce the identical result
and store; GetAlertById's query carries no org at all and returns whatever
rule the id resolves to, whatever its OrgId is. -/
theorem C10_org_ignored (now : Nat) (s : Store) (cmd : SetAlertStateCommand)
    (o1 o2 : Int) (i : Nat) :
    SetAlertState now { cmd with OrgId := o1 } s =
      SetAlertState now { cmd with OrgId := o2 } s ∧
    (∀ a, findAlert s i = some a → GetAlertById s i = .ok a) := by
  constructor
  · rfl
  · intro a ha
    unfold GetAlertById
    rw [ha]

/-- Fixture: a plain alert row builder for concrete witnesses. -/
def mkAlertW (id : Nat) (dash panel : Int) (name : String) (st : AlertStateType) : Alert :=
  { Id := id, Version := 0, OrgId := 7, DashboardId := dash, PanelId := panel,
    Name := name, Message := "m", Severity := "", State := st,
    Handler := 0, Silenced := false, ExecutionError := "", Frequency := 60,
    For := 0, EvalData := none, NewStateDate := 1, StateChanges := 0,
    Created := 1, Updated := 1, Settings := some ⟨none, none, "doc"⟩ }

/-- Fixture: a small store with one ok rule and one paused rule. -/
def storeW : Store :=
  { alerts := [mkAlertW 1 1 1 "a" AlertStateOK, mkAlertW 2 1 2 "p" AlertStatePaused],
    nextAlertId := 3, tags := [], nextTagId := 1, ruleTags := [(1, 4)],
    ruleNotifs := [(1, 5)], annotations := [1, 2], notifStates := [1],
    notifChannels := [], dashboards := [⟨1, "du", "ds"⟩] }

theorem C10_org_ignored_witness :
    findAlert storeW 1 = some (mkAlertW 1 1 1 "a" AlertStateOK) ∧
    GetAlertById storeW 1 = .ok (mkAlertW 1 1 1 "a" AlertStateOK) :=
  ⟨by decide,
   (C10_org_ignored 5 storeW ⟨1, 0, AlertStateAlerting, "", none⟩ 3 4 1).2
     (mkAlertW 1 1 1 "a" AlertStateOK) (by decide)⟩

end Grafana

namespace Grafana

/-! ### C8: PauseAlert semantics -/

/-- The row transformation one PauseAlert call applies to matching rows. -/
def pauseRow (now : Nat) (paused : Bool) (ids : List Nat) (a : Alert) : Alert :=
  if ids.contains a.Id then
    { a with State := if paused then AlertStatePaused else AlertStateUnknown,
             NewStateDate := now }
  else a

/-- The store PauseAlert leaves behind on the non-empty path. -/
def pausedStore (now : Nat) (paused : Bool) (ids : List Nat) (s : Store) : Store :=
  { s with alerts := (s.alerts.map (pauseRow now paused ids)) }

theorem pauseRow_id (now : Nat) (paused : Bool) (ids : List Nat) (a : Alert) :
    (pauseRow now paused ids a).Id = a.Id := by
  unfold pauseRow
  split <;> rfl

theorem PauseAlert_ok (now : Nat) (cmd : PauseAlertCommand) (s : Store)
    (h : cmd.AlertIds ≠ []) :
    PauseAlert now cmd s =
      .ok (pausedStore now cmd.Paused cmd.AlertIds s,
           (s.alerts.filter (fun a => cmd.AlertIds.contains a.Id)).length) := by
  unfold PauseAlert
  rw [if_neg h]
  rfl

/-- C8: PauseAlert on an empty id list fails validation; otherwise it
unconditionally (no transition guard) sets every listed existing rule's
state to Paused or Unknown and stamps its newStateDate, leaves every other
rule untouched, silently ignores absent ids, and returns the count of rows
whose id is listed.  Pausing then unpausing therefore leaves every listed
rule in state Unknown, not its pre-pause state; PauseAllAlerts does the
same to every row. -/
theorem C8_pause (now now2 : Nat) (cmd : PauseAlertCommand) (s : Store) :
    (cmd.AlertIds = [] → PauseAlert now cmd s = .error "command contains no alertids") ∧
    (cmd.AlertIds ≠ [] →
       PauseAlert now cmd s =
         .ok (pausedStore now cmd.Paused cmd.AlertIds s,
              (s.alerts.filter (fun a => cmd.AlertIds.contains a.Id)).length) ∧
       (∀ i, findAlert (pausedStore now cmd.Paused cmd.AlertIds s) i =
          (findAlert s i).map (pauseRow now cmd.Paused cmd.AlertIds))) ∧
    (cmd.AlertIds ≠ [] → ∀ s1 c1 s2 c2,
       PauseAlert now { cmd with Paused := true } s = .ok (s1, c1) →
       PauseAlert now2 { cmd with Paused := false } s1 = .ok (s2, c2) →
       ∀ a ∈ s2.alerts, cmd.AlertIds.contains a.Id → a.State = AlertStateUnknown) ∧
    (∀ a ∈ (PauseAllAlerts now cmd.Paused s).1.alerts,
       a.State = if cmd.Paused then AlertStatePaused else AlertStateUnknown) := by
  refine ⟨?_, ?_, ?_, ?_⟩
  · intro h
    unfold PauseAlert
    rw [if_pos h]
  · intro h
    refine ⟨PauseAlert_ok now cmd s h, ?_⟩
    intro i
    unfold pausedStore findAlert
    simp only
    rw [find?_map_idPreserving _ _ (pauseRow_id now cmd.Paused cmd.AlertIds) i]
  · intro h s1 c1 s2 c2 h1 h2 a ha hmem
    rw [PauseAlert_ok now { cmd with Paused := true } s h] at h1
    simp only [Except.ok.injEq, Prod.mk.injEq] at h1
    obtain ⟨rfl, -⟩ := h1
    rw [PauseAlert_ok now2 { cmd with Paused := false } _ h] at h2
    simp only [Except.ok.injEq, Prod.mk.injEq] at h2
    obtain ⟨rfl, -⟩ := h2
    unfold pausedStore at ha
    simp only [List.mem_map] at ha
    obtain ⟨b, ⟨c, hc, rfl⟩, rfl⟩ := ha
    by_cases hb : cmd.AlertIds.contains c.Id = true
    · have hb' : c.Id ∈ cmd.AlertIds := by simpa using hb
      simp [pauseRow, hb']
    · exfalso
      apply hb
      rw [pauseRow_id, pauseRow_id] at hmem
      exact hmem
  · intro a ha
    unfold PauseAllAlerts at ha
    simp only [List.mem_map] at ha
    obtain ⟨b, -, rfl⟩ := ha
    rfl

theorem C8_pause_witness :
    (([1, 2, 99] : List Nat) ≠ []) ∧
    (PauseAlert 5 ⟨7, [1, 2, 99], true⟩ storeW =
       .ok (pausedStore 5 true [1, 2, 99] storeW, 2) ∧
     (∀ i, findAlert (pausedStore 5 true [1, 2, 99] storeW) i =
        (findAlert storeW i).map (pauseRow 5 true [1, 2, 99]))) := by
  refine ⟨by decide, ?_⟩
  have h := (C8_pause 5 6 ⟨7, [1, 2, 99], true⟩ storeW).2.1 (by decide)
  obtain ⟨h1, h2⟩ := h
  have hc : (storeW.alerts.filter (fun a => [1, 2, 99].contains a.Id)).length = 2 := by decide
  exact ⟨by rw [h1, hc], h2⟩

end Grafana

namespace Grafana

/-! ### Query pipeline membership -/

theorem mem_insertByName (x y : Alert × Option Dashboard)
    (l : List (Alert × Option Dashboard)) :
    y ∈ insertByName x l ↔ y = x ∨ y ∈ l := by
  induction l with
  | nil => simp [insertByName]
  | cons z zs ih =>
    unfold insertByName
    split
    · simp
    · simp only [List.mem_cons, ih]
      tauto

theorem mem_sortByName (y : Alert × Option Dashboard)
    (l : List (Alert × Option Dashboard)) :
    y ∈ sortByName l ↔ y ∈ l := by
  induction l with
  | nil => simp [sortByName]
  | cons z zs ih =>
    unfold sortByName
    rw [mem_insertByName]
    simp [ih]

theorem handleQuery_mem (q : GetAlertsQuery) (pf : Int → Bool) (s : Store)
    (row : AlertListItemDTO) (h : row ∈ HandleAlertsQuery q pf s) :
    ∃ p : Alert × Option Dashboard,
      queryCond q pf p.1 = true ∧ row = queryDTO p.1 p.2 := by
  unfold HandleAlertsQuery at h
  simp only [List.mem_map] at h
  obtain ⟨p, hp, rfl⟩ := h
  refine ⟨p, ?_, rfl⟩
  by_cases hl : q.Limit = 0
  · rw [if_pos hl] at hp
    rw [mem_sortByName] at hp
    exact (List.mem_filter.1 hp).2
  · rw [if_neg hl] at hp
    have hp2 := List.take_subset _ _ hp
    rw [mem_sortByName] at hp2
    exact (List.mem_filter.1 hp2).2

/-! ### C3: the executionError sentinel (corrected) -/

/-- Fixture: an alert row carrying the stored single-space sentinel. -/
def sentinelAlert : Alert :=
  { mkAlertW 1 1 1 "a" AlertStateOK with ExecutionError := " " }

/-- Fixture: a store holding sentinelAlert. -/
def sentinelStore : Store :=
  { storeW with alerts := [sentinelAlert] }

/-- C3 counterexample: the claim says every read path normalizes the
single-space executionError sentinel, but GetAlertById returns the stored
row verbatim: on a store whose rule carries executionError " ", the
returned rule still carries " ", and the caller observes the sentinel. -/
theorem C3_counterexample :
    GetAlertById sentinelStore 1 = .ok sentinelAlert ∧
    sentinelAlert.ExecutionError = " " := by
  constructor
  · rfl
  · rfl

/-- C3 amended: only the search path (HandleAlertsQuery) normalizes the
sentinel — no returned row ever carries executionError " "; the other
read paths expose the stored value unchanged: GetAlertById returns the
stored row verbatim, GetAllAlerts returns the table verbatim, and the
rule returned by a successful SetAlertState with empty error text itself
carries the " " sentinel. -/
theorem C3_sentinel_amended (s : Store) (q : GetAlertsQuery) (pf : Int → Bool)
    (i : Nat) (now : Nat) (cmd : SetAlertStateCommand) :
    (∀ row ∈ HandleAlertsQuery q pf s, row.ExecutionError ≠ " ") ∧
    (∀ a, findAlert s i = some a → GetAlertById s i = .ok a) ∧
    GetAllAlerts s = s.alerts ∧
    (∀ s1 r, SetAlertState now cmd s = .ok (s1, r) → cmd.Error = "" →
       r.ExecutionError = " ") := by
  refine ⟨?_, ?_, rfl, ?_⟩
  · intro row hrow
    obtain ⟨p, -, rfl⟩ := handleQuery_mem q pf s row hrow
    unfold queryDTO
    simp only
    split
    · decide
    · assumption
  · intro a ha
    unfold GetAlertById
    rw [ha]
  · intro s1 r h1 herr
    unfold SetAlertState at h1
    cases hf : findAlert s cmd.AlertId with
    | none => rw [hf] at h1; exact absurd h1 (by simp)
    | some a =>
      simp only [hf] at h1
      by_cases hp : a.State = AlertStatePaused
      · rw [if_pos hp] at h1
        exact absurd h1 (by simp)
      · rw [if_neg hp] at h1
        by_cases hs : a.State = cmd.State
        · rw [if_pos hs] at h1
          exact absurd h1 (by simp)
        · rw [if_neg hs] at h1
          simp only [Except.ok.injEq, Prod.mk.injEq] at h1
          obtain ⟨-, rfl⟩ := h1
          simp only
          rw [if_pos herr]

theorem C3_sentinel_amended_witness :
    (∀ row ∈ HandleAlertsQuery ⟨7, [], [], 0, 0, "", "Admin", false⟩
        (fun _ => true) sentinelStore, row.ExecutionError ≠ " ") ∧
    (findAlert sentinelStore 1 = some sentinelAlert) ∧
    GetAlertById sentinelStore 1 = .ok sentinelAlert := by
  have h := C3_sentinel_amended sentinelStore ⟨7, [], [], 0, 0, "", "Admin", false⟩
    (fun _ => true) 1 5 ⟨1, 0, AlertStateAlerting, "", none⟩
  exact ⟨h.1, by decide, h.2.1 sentinelAlert (by decide)⟩

end Grafana

namespace Grafana

/-! ### C7: the search state filter (corrected) -/

/-- Fixture: a state filter whose second token is the literal "all". -/
def q7all : GetAlertsQuery := ⟨7, ["ok", "all"], [], 0, 0, "", "Admin", false⟩

/-- Fixture: the same query with no state filter at all. -/
def q7none : GetAlertsQuery := ⟨7, [], [], 0, 0, "", "Admin", false⟩

/-- C7 counterexample: the claim says a state filter containing the
literal token "all" disables state filtering entirely, but the code only
checks the first token: with the filter ["ok", "all"] (which contains
"all") the paused rule of storeW is not returned, while the unfiltered
query returns it. -/
theorem C7_counterexample :
    "all" ∈ q7all.State ∧
    (HandleAlertsQuery q7all (fun _ => true) storeW).map AlertListItemDTO.Name = ["a"] ∧
    (HandleAlertsQuery q7none (fun _ => true) storeW).map AlertListItemDTO.Name = ["a", "p"] := by
  refine ⟨by decide, by decide, by decide⟩

/-- C7 amended: when the state token list is nonempty and its first token
is not "all", every returned row satisfies the OR-combination of the
token conditions, where a not_-prefixed token means "state differs from
the remainder" — in particular a ["not_ok"] filter returns only rows whose
state differs from "ok"; and state filtering is disabled exactly when the
first token is "all" (an "all" token in any later position is treated as
an ordinary state token). -/
theorem C7_state_filter_amended (q : GetAlertsQuery) (pf : Int → Bool) (s : Store) :
    (q.State ≠ [] → q.State.head? ≠ some "all" →
       ∀ row ∈ HandleAlertsQuery q pf s, stateTokenCond q.State row.State = true) ∧
    (∀ row ∈ HandleAlertsQuery { q with State := ["not_ok"] } pf s,
       row.State ≠ "ok") ∧
    (q.State.head? = some "all" →
       HandleAlertsQuery q pf s = HandleAlertsQuery { q with State := [] } pf s) := by
  have hstate : ∀ (q' : GetAlertsQuery), q'.State ≠ [] → q'.State.head? ≠ some "all" →
      ∀ row ∈ HandleAlertsQuery q' pf s, stateTokenCond q'.State row.State = true := by
    intro q' h1 h2 row hrow
    obtain ⟨p, hp, rfl⟩ := handleQuery_mem q' pf s row hrow
    unfold queryCond at hp
    simp only [Bool.and_eq_true] at hp
    have hs := hp.1.2
    rw [if_neg h1, if_neg h2] at hs
    exact hs
  refine ⟨hstate q, ?_, ?_⟩
  · intro row hrow
    have h := hstate { q with State := ["not_ok"] } (by simp) (by simp) row hrow
    have hsw : strHasPrefix "not_ok" "not_" = true := by decide
    have hdrop : strTrimPrefix "not_ok" "not_" = "ok" := by decide
    unfold stateTokenCond at h
    simp only [List.any_cons, List.any_nil, hsw, if_pos, hdrop, Bool.or_false] at h
    simpa using h
  · intro hall
    have hc : queryCond q pf = queryCond { q with State := [] } pf := by
      funext a
      unfold queryCond
      by_cases he : q.State = []
      · simp [he]
      · simp [he, hall]
    unfold HandleAlertsQuery
    rw [hc]

theorem C7_state_filter_amended_witness :
    ((["not_ok"] : List String) ≠ [] ∧ (["not_ok"] : List String).head? ≠ some "all") ∧
    (∀ row ∈ HandleAlertsQuery ⟨7, ["not_ok"], [], 0, 0, "", "Admin", false⟩
        (fun _ => true) storeW, stateTokenCond ["not_ok"] row.State = true) := by
  refine ⟨⟨by decide, by decide⟩, ?_⟩
  exact (C7_state_filter_amended ⟨7, ["not_ok"], [], 0, 0, "", "Admin", false⟩
    (fun _ => true) storeW).1 (by decide) (by decide)

end Grafana

namespace Grafana

theorem C9_delete_cascade_witness :
    AlertIdFree 1 (deleteAlertByIdInternal 1 storeW) ∧
    ((mkAlertW 1 1 1 "a" AlertStateOK) ∈ GetAlertsByDashboardId2 1 storeW ∧
     AlertIdFree 1 (SaveAlerts 5 ⟨1, 0, 7, []⟩ storeW)) := by
  have h := C9_delete_cascade storeW 1 1 ⟨1⟩ ⟨1, 0, 7, []⟩ 5
  refine ⟨h.1, by decide, ?_⟩
  have h4 := h.2.2.2 (mkAlertW 1 1 1 "a" AlertStateOK) (by decide) (by decide)
  simpa using h4

/-! ### C2: the SetAlertState state machine (corrected) -/

/-- The in-memory rule SetAlertState builds on the success path (and
assigns to cmd.Result). -/
def setStateRow (now : Nat) (cmd : SetAlertStateCommand) (a : Alert) : Alert :=
  { a with
      State := cmd.State
      StateChanges := a.StateChanges + 1
      NewStateDate := now
      EvalData := cmd.EvalData
      ExecutionError := if cmd.Error = "" then " " else cmd.Error }

/-- The store SetAlertState leaves behind on the success path. -/
def setStateStore (now : Nat) (cmd : SetAlertStateCommand) (s : Store) (a : Alert) : Store :=
  { s with alerts := (s.alerts.map (fun r =>
      if r.Id = a.Id then xormUpdateAlert false r (setStateRow now cmd a) else r)) }

theorem SetAlertState_ok (now : Nat) (cmd : SetAlertStateCommand) (s : Store) (a : Alert)
    (hf : findAlert s cmd.AlertId = some a) (hp : a.State ≠ AlertStatePaused)
    (hs : a.State ≠ cmd.State) :
    SetAlertState now cmd s = .ok (setStateStore now cmd s a, setStateRow now cmd a) := by
  unfold SetAlertState
  simp only [hf]
  rw [if_neg hp, if_neg hs]
  rfl

/-- Fixture: an ok rule that has stored evaluation data. -/
def evalDataAlert : Alert :=
  { mkAlertW 1 1 1 "a" AlertStateOK with EvalData := some "x" }

/-- Fixture: a store holding evalDataAlert. -/
def evalDataStore : Store :=
  { storeW with alerts := [evalDataAlert] }

/-- C2 counterexample, two parts.  (1) With nil evalData the call succeeds
but does not store the evaluation data: the rule keeps its previously
stored evaluation data some "x" while the returned rule carries none, so
"stores the evaluation data" fails (xorm skips nil fields on update).
(2) On a paused rule a same-state request fails with the InvalidTransition
error, not the NoOpTransition error the claim promises for every
same-state call. -/
theorem C2_counterexample :
    ((SetAlertState 5 ⟨1, 0, AlertStateAlerting, "e", none⟩ evalDataStore).toOption.map
        (fun p => ((findAlert p.1 1).map Alert.EvalData, p.2.EvalData)))
      = some (some (some "x"), none) ∧
    SetAlertState 5 ⟨2, 0, AlertStatePaused, "e", none⟩ storeW =
      .error "Cannot change state on pause alert" := by
  exact ⟨by decide, by rfl⟩

/-- C2 amended: NotFound when the id does not exist; InvalidTransition on
a paused rule (this check precedes and overrides the no-op check);
NoOpTransition when the requested state equals the current (non-paused)
state; otherwise the call succeeds, returning the updated rule, and the
stored row has the new state, stateChanges incremented by exactly 1,
newStateDate = now and the supplied evaluation data — provided the
requested state is nonempty, the evaluation data is non-nil and the clock
is nonzero, because the storage layer skips zero-valued fields on
update. -/
theorem C2_set_state_amended (now : Nat) (cmd : SetAlertStateCommand) (s : Store) :
    (findAlert s cmd.AlertId = none →
       SetAlertState now cmd s = .error "Could not find alert") ∧
    (∀ a, findAlert s cmd.AlertId = some a → a.State = AlertStatePaused →
       SetAlertState now cmd s = .error "Cannot change state on pause alert") ∧
    (∀ a, findAlert s cmd.AlertId = some a → a.State ≠ AlertStatePaused →
       a.State = cmd.State →
       SetAlertState now cmd s = .error "update alert state requires a new state") ∧
    (∀ a, findAlert s cmd.AlertId = some a → a.State ≠ AlertStatePaused →
       a.State ≠ cmd.State → cmd.State ≠ "" → cmd.EvalData ≠ none → now ≠ 0 →
       SetAlertState now cmd s = .ok (setStateStore now cmd s a, setStateRow now cmd a) ∧
       ∃ b, findAlert (setStateStore now cmd s a) cmd.AlertId = some b ∧
         b.State = cmd.State ∧ b.StateChanges = a.StateChanges + 1 ∧
         b.NewStateDate = now ∧ b.EvalData = cmd.EvalData) := by
  refine ⟨?_, ?_, ?_, ?_⟩
  · intro hf
    unfold SetAlertState
    rw [hf]
  · intro a hf hpaused
    unfold SetAlertState
    simp only [hf]
    rw [if_pos hpaused]
  · intro a hf hp heq
    unfold SetAlertState
    simp only [hf]
    rw [if_neg hp, if_pos heq]
  · intro a hf hp hs hne hev hnow
    refine ⟨SetAlertState_ok now cmd s a hf hp hs, ?_⟩
    refine ⟨xormUpdateAlert false a (setStateRow now cmd a), ?_, ?_, ?_, ?_, ?_⟩
    · unfold setStateStore findAlert
      simp only
      rw [find?_map_idPreserving]
      · unfold findAlert at hf
        rw [hf]
        simp
      · intro r
        unfold xormUpdateAlert
        split <;> rfl
    · simp [xormUpdateAlert, setStateRow, hne]
    · simp [xormUpdateAlert, setStateRow]
    · simp [xormUpdateAlert, setStateRow, hnow]
    · simp [xormUpdateAlert, setStateRow, hev]

theorem C2_set_state_amended_witness :
    (findAlert evalDataStore 1 = some evalDataAlert ∧
     evalDataAlert.State ≠ AlertStatePaused ∧
     evalDataAlert.State ≠ AlertStateAlerting ∧
     (AlertStateAlerting : String) ≠ "" ∧ (some "y" : Option String) ≠ none ∧ (5 : Nat) ≠ 0) ∧
    (SetAlertState 5 ⟨1, 0, AlertStateAlerting, "", some "y"⟩ evalDataStore =
       .ok (setStateStore 5 ⟨1, 0, AlertStateAlerting, "", some "y"⟩ evalDataStore evalDataAlert,
            setStateRow 5 ⟨1, 0, AlertStateAlerting, "", some "y"⟩ evalDataAlert) ∧
     ∃ b, findAlert (setStateStore 5 ⟨1, 0, AlertStateAlerting, "", some "y"⟩
            evalDataStore evalDataAlert) 1 = some b ∧
       b.State = AlertStateAlerting ∧ b.StateChanges = evalDataAlert.StateChanges + 1 ∧
       b.NewStateDate = 5 ∧ b.EvalData = some "y") := by
  refine ⟨⟨by decide, by decide, by decide, by decide, by decide, by decide⟩, ?_⟩
  exact (C2_set_state_amended 5 ⟨1, 0, AlertStateAlerting, "", some "y"⟩ evalDataStore).2.2.2
    evalDataAlert (by decide) (by decide) (by decide) (by decide) (by decide) (by decide)

end Grafana

namespace Grafana

/-! ### Reconciliation machinery: the rule-table effect of SaveAlerts -/

/-- The existing alert the updateAlerts matching loop selects for an
incoming alert: the first one with the same panel id. -/
def exKey (ex : List Alert) (d : Alert) : Option Alert :=
  ex.find? (fun k => decide (d.PanelId = k.PanelId))

/-- The incoming alert that matches a persisted row, by panel id. -/
def dMatch (ds : List Alert) (r : Alert) : Option Alert :=
  ds.find? (fun d => decide (d.PanelId = r.PanelId))

/-- What updateAlerts leaves in a matched row old (the loaded copy of the
row is k = old under unique ids): update through xorm (MustCols message,
for) only when ContainsUpdates holds, else leave the row alone. -/
def reconcileRow (now : Nat) (old d : Alert) : Alert :=
  if old.ContainsUpdates { d with Id := old.Id } then
    xormUpdateAlert true old { d with Id := old.Id, Updated := now, State := old.State }
  else old

/-- The freshly inserted row for an unmatched incoming alert. -/
def insertRow (now : Nat) (i : Nat) (d : Alert) : Alert :=
  { d with
      Id := i, Updated := now, Created := now,
      State := AlertStateUnknown, NewStateDate := now }

/-- The block of rows updateAlerts inserts, with their store-assigned
ids. -/
def insertedRules (ex : List Alert) (now : Nat) (nextId : Nat) : List Alert → List Alert
  | [] => []
  | d :: ds =>
    match exKey ex d with
    | some _ => insertedRules ex now nextId ds
    | none => insertRow now nextId d :: insertedRules ex now (nextId + 1) ds

/-- How many incoming alerts have no panel match. -/
def insertCount (ex ds : List Alert) : Nat :=
  (ds.filter (fun d => (exKey ex d).isNone)).length

/-- The per-row effect of the updateAlerts loop, keyed by row id: the row
whose id equals the id of the existing alert matched by some incoming
alert gets reconciled against it; every other row is untouched. -/
def phase1fn (ex ds : List Alert) (now : Nat) (r : Alert) : Alert :=
  match ds.find? (fun d => ((exKey ex d).map (fun k => decide (k.Id = r.Id))).getD false) with
  | none => r
  | some d =>
    match exKey ex d with
    | none => r
    | some k =>
      if k.ContainsUpdates { d with Id := k.Id } then
        xormUpdateAlert true r { d with Id := k.Id, Updated := now, State := k.State }
      else r

/-- The per-persisted-row effect of SaveAlerts: a row of the dashboard is
deleted when no incoming alert shares its panel, reconciled against its
panel match otherwise; rows of other dashboards are untouched. -/
def reconcileF (now : Nat) (cmd : SaveAlertsCommand) (r : Alert) : Option Alert :=
  if r.DashboardId = cmd.DashboardId then
    match dMatch cmd.Alerts r with
    | none => none
    | some d => some (reconcileRow now r d)
  else some r

/-- The full rule-table effect of SaveAlerts: per persisted row as in
reconcileF, with the unmatched incoming alerts appended as fresh rows. -/
def reconciledRules (now : Nat) (cmd : SaveAlertsCommand) (s : Store) : List Alert :=
  s.alerts.filterMap (reconcileF now cmd)
  ++ insertedRules (GetAlertsByDashboardId2 cmd.DashboardId s) now s.nextAlertId cmd.Alerts

/-- Store well-formedness: row ids are pairwise distinct and below the
auto-increment counter. -/
def StoreWF (s : Store) : Prop :=
  s.alerts.Pairwise (fun a b => a.Id ≠ b.Id) ∧ ∀ a ∈ s.alerts, a.Id < s.nextAlertId

/-- The spec's panel-key invariant, on both sides of one reconciliation:
panel ids are unique among the incoming alerts and among the dashboard's
persisted alerts. -/
def PanelsWF (cmd : SaveAlertsCommand) (s : Store) : Prop :=
  cmd.Alerts.Pairwise (fun a b => a.PanelId ≠ b.PanelId) ∧
  (GetAlertsByDashboardId2 cmd.DashboardId s).Pairwise (fun a b => a.PanelId ≠ b.PanelId)

/-! #### Frame lemmas: link regeneration does not touch the rule table -/

theorem ensureTagsExist_alerts (l : List (String × String)) (s : Store) :
    (ensureTagsExist s l).2.alerts = s.alerts ∧
    (ensureTagsExist s l).2.nextAlertId = s.nextAlertId := by
  induction l generalizing s with
  | nil => exact ⟨rfl, rfl⟩
  | cons kv rest ih =>
    unfold ensureTagsExist
    split
    · simpa using ih s
    · simpa using ih _

theorem insertNotifications_alerts (s : Store) (i : Nat) (o : Int) (uids : List String) :
    (insertNotifications s i o uids).alerts = s.alerts ∧
    (insertNotifications s i o uids).nextAlertId = s.nextAlertId := by
  induction uids generalizing s with
  | nil => exact ⟨rfl, rfl⟩
  | cons u rest ih => simpa [insertNotifications] using ih _

theorem regenLinks_alerts (i : Nat) (al : Alert) (s : Store) :
    (regenLinks i al s).alerts = s.alerts ∧
    (regenLinks i al s).nextAlertId = s.nextAlertId := by
  unfold regenLinks insertTags
  have h1 := ensureTagsExist_alerts al.GetTagsFromSettings
    { s with ruleTags := s.ruleTags.filter (fun p => decide (p.1 ≠ i)) }
  have h2 := insertNotifications_alerts
  constructor
  · rw [(insertNotifications_alerts _ _ _ _).1]
    simpa using h1.1
  · rw [(insertNotifications_alerts _ _ _ _).2]
    simpa using h1.2

end Grafana

namespace Grafana

theorem pairwise_id_unique {l : List Alert}
    (h : l.Pairwise (fun a b => a.Id ≠ b.Id)) {a b : Alert}
    (ha : a ∈ l) (hb : b ∈ l) (hid : a.Id = b.Id) : a = b := by
  induction l with
  | nil => cases ha
  | cons c t ih =>
    rw [List.pairwise_cons] at h
    rcases List.mem_cons.1 ha with rfl | ha'
    · rcases List.mem_cons.1 hb with rfl | hb'
      · rfl
      · exact absurd hid (h.1 b hb')
    · rcases List.mem_cons.1 hb with rfl | hb'
      · exact absurd hid.symm (h.1 a ha')
      · exact ih h.2 ha' hb'

theorem exKey_panel {ex : List Alert} {d k : Alert} (h : exKey ex d = some k) :
    d.PanelId = k.PanelId := by
  have := List.find?_some h
  simpa using this

theorem exKey_mem {ex : List Alert} {d k : Alert} (h : exKey ex d = some k) :
    k ∈ ex := List.mem_of_find?_eq_some h

/-- The body applied to a matched incoming alert in phase1fn. -/
def applyMatched (ex : List Alert) (now : Nat) (d r : Alert) : Alert :=
  match exKey ex d with
  | none => r
  | some k =>
    if k.ContainsUpdates { d with Id := k.Id } then
      xormUpdateAlert true r { d with Id := k.Id, Updated := now, State := k.State }
    else r

/-- The per-row lookup of phase1fn: the first incoming alert whose matched
existing id equals this row's id. -/
def phase1find (ex ds : List Alert) (r : Alert) : Option Alert :=
  ds.find? (fun d => ((exKey ex d).map (fun k => decide (k.Id = r.Id))).getD false)

theorem phase1fn_eq (ex ds : List Alert) (now : Nat) (r : Alert) :
    phase1fn ex ds now r =
      match phase1find ex ds r with
      | none => r
      | some d => applyMatched ex now d r := by
  unfold phase1fn phase1find applyMatched
  rfl

theorem phase1fn_nil (ex : List Alert) (now : Nat) (r : Alert) :
    phase1fn ex [] now r = r := rfl

theorem applyMatched_some (ex : List Alert) (now : Nat) (d r k : Alert)
    (hk : exKey ex d = some k) :
    applyMatched ex now d r =
      (if k.ContainsUpdates { d with Id := k.Id } then
        xormUpdateAlert true r { d with Id := k.Id, Updated := now, State := k.State }
      else r) := by
  unfold applyMatched
  rw [hk]

theorem applyMatched_id (ex : List Alert) (now : Nat) (d r : Alert) :
    (applyMatched ex now d r).Id = r.Id := by
  unfold applyMatched
  split
  · rfl
  · split
    · rfl
    · rfl

theorem phase1fn_id (ex ds : List Alert) (now : Nat) (r : Alert) :
    (phase1fn ex ds now r).Id = r.Id := by
  rw [phase1fn_eq]
  cases phase1find ex ds r with
  | none => rfl
  | some d => exact applyMatched_id ex now d r

theorem phase1fn_fresh (ex ds : List Alert) (now : Nat) (r : Alert)
    (hfresh : ∀ k ∈ ex, k.Id ≠ r.Id) : phase1fn ex ds now r = r := by
  rw [phase1fn_eq]
  have hnone : phase1find ex ds r = none := by
    unfold phase1find
    rw [List.find?_eq_none]
    intro d _
    cases hk : exKey ex d with
    | none => simp
    | some k =>
      simp only [Option.map_some', Option.getD_some]
      simpa using hfresh k (exKey_mem hk)
  rw [hnone]

theorem phase1fn_step_none (ex : List Alert) (now : Nat) (d : Alert) (ds' : List Alert)
    (hk : exKey ex d = none) (r : Alert) :
    phase1fn ex (d :: ds') now r = phase1fn ex ds' now r := by
  rw [phase1fn_eq, phase1fn_eq]
  have hstep : phase1find ex (d :: ds') r = phase1find ex ds' r := by
    unfold phase1find
    rw [List.find?_cons_of_neg]
    rw [hk]
    simp
  rw [hstep]

theorem phase1fn_step (ex : List Alert) (now : Nat) (d : Alert) (ds' : List Alert)
    (k : Alert) (hk : exKey ex d = some k)
    (hex : ex.Pairwise (fun a b => a.Id ≠ b.Id))
    (hpan : ∀ d' ∈ ds', d.PanelId ≠ d'.PanelId) (r : Alert) :
    phase1fn ex ds' now
      (if r.Id = k.Id then
        (if k.ContainsUpdates { d with Id := k.Id } then
          xormUpdateAlert true r { d with Id := k.Id, Updated := now, State := k.State }
        else r)
      else r) = phase1fn ex (d :: ds') now r := by
  have hds'none : ∀ v : Alert, v.Id = k.Id → phase1find ex ds' v = none := by
    intro v hv
    unfold phase1find
    rw [List.find?_eq_none]
    intro d' hd'
    cases hk' : exKey ex d' with
    | none => simp
    | some k' =>
      simp only [Option.map_some', Option.getD_some, decide_eq_true_eq]
      intro heq
      have hkk : k' = k := pairwise_id_unique hex (exKey_mem hk') (exKey_mem hk)
        (by rw [heq, hv])
      have hpp : d.PanelId = d'.PanelId := by
        rw [exKey_panel hk, exKey_panel hk', hkk]
      exact hpan d' hd' hpp
  by_cases hr : r.Id = k.Id
  · rw [if_pos hr]
    have hfind : phase1find ex (d :: ds') r = some d := by
      unfold phase1find
      refine List.find?_cons_of_pos _ ?_
      rw [hk]
      simpa using hr.symm
    rw [phase1fn_eq ex (d :: ds'), hfind]
    simp only
    rw [applyMatched_some ex now d r k hk]
    by_cases hcup : k.ContainsUpdates { d with Id := k.Id } = true
    · rw [if_pos hcup]
      rw [phase1fn_eq, hds'none _ (by unfold xormUpdateAlert; simpa using hr)]
    · rw [if_neg hcup]
      rw [phase1fn_eq, hds'none _ hr]
  · rw [if_neg hr]
    rw [phase1fn_eq ex (d :: ds'), phase1fn_eq ex ds']
    have hstep : phase1find ex (d :: ds') r = phase1find ex ds' r := by
      unfold phase1find
      rw [List.find?_cons_of_neg]
      rw [hk]
      simpa using fun h => hr (h.symm)
    rw [hstep]

end Grafana

namespace Grafana

theorem map_congr_mem {α β : Type} {f g : α → β} :
    ∀ {l : List α}, (∀ a ∈ l, f a = g a) → l.map f = l.map g := by
  intro l
  induction l with
  | nil => intro _; rfl
  | cons x t ih =>
    intro h
    simp only [List.map_cons]
    rw [h x (List.mem_cons_self x t), ih (fun a ha => h a (List.mem_cons_of_mem x ha))]

theorem insertedRules_cons_matched (ex : List Alert) (now n : Nat) (d : Alert)
    (ds' : List Alert) (k : Alert) (hk : exKey ex d = some k) :
    insertedRules ex now n (d :: ds') = insertedRules ex now n ds' := by
  rw [show insertedRules ex now n (d :: ds') =
      (match exKey ex d with
       | some _ => insertedRules ex now n ds'
       | none => insertRow now n d :: insertedRules ex now (n + 1) ds') from rfl, hk]

theorem insertedRules_cons_unmatched (ex : List Alert) (now n : Nat) (d : Alert)
    (ds' : List Alert) (hk : exKey ex d = none) :
    insertedRules ex now n (d :: ds') =
      insertRow now n d :: insertedRules ex now (n + 1) ds' := by
  rw [show insertedRules ex now n (d :: ds') =
      (match exKey ex d with
       | some _ => insertedRules ex now n ds'
       | none => insertRow now n d :: insertedRules ex now (n + 1) ds') from rfl, hk]

theorem insertCount_cons_matched (ex : List Alert) (d : Alert) (ds' : List Alert)
    (k : Alert) (hk : exKey ex d = some k) :
    insertCount ex (d :: ds') = insertCount ex ds' := by
  unfold insertCount
  rw [List.filter_cons]
  rw [hk]
  simp

theorem insertCount_cons_unmatched (ex : List Alert) (d : Alert) (ds' : List Alert)
    (hk : exKey ex d = none) :
    insertCount ex (d :: ds') = insertCount ex ds' + 1 := by
  unfold insertCount
  rw [List.filter_cons]
  rw [hk]
  simp [Nat.add_comm]

theorem processAlert_matched (ex : List Alert) (now : Nat) (d : Alert) (σ : Store)
    (k : Alert) (hk : exKey ex d = some k) :
    processAlert ex now d σ =
      regenLinks k.Id { d with Id := k.Id }
        (if k.ContainsUpdates { d with Id := k.Id } then
          { σ with alerts := (σ.alerts.map (fun r =>
              if r.Id = k.Id then
                xormUpdateAlert true r { d with Id := k.Id, Updated := now, State := k.State }
              else r)) }
        else σ) := by
  unfold processAlert
  unfold exKey at hk
  rw [hk]

theorem processAlert_unmatched (ex : List Alert) (now : Nat) (d : Alert) (σ : Store)
    (hk : exKey ex d = none) :
    processAlert ex now d σ =
      regenLinks σ.nextAlertId (insertRow now σ.nextAlertId d)
        { σ with
            alerts := σ.alerts ++ [insertRow now σ.nextAlertId d]
            nextAlertId := σ.nextAlertId + 1 } := by
  unfold processAlert
  unfold exKey at hk
  rw [hk]
  rfl

theorem updateAlerts_shape (ex : List Alert) (now : Nat) :
    ∀ (ds : List Alert) (σ : Store),
      ds.Pairwise (fun a b => a.PanelId ≠ b.PanelId) →
      ex.Pairwise (fun a b => a.Id ≠ b.Id) →
      (∀ k ∈ ex, k.Id < σ.nextAlertId) →
      (updateAlerts ex now ds σ).alerts =
        σ.alerts.map (phase1fn ex ds now) ++ insertedRules ex now σ.nextAlertId ds ∧
      (updateAlerts ex now ds σ).nextAlertId = σ.nextAlertId + insertCount ex ds := by
  intro ds
  induction ds with
  | nil =>
    intro σ _ _ _
    refine ⟨?_, ?_⟩
    · show σ.alerts = _
      rw [show insertedRules ex now σ.nextAlertId [] = [] from rfl, List.append_nil]
      rw [show σ.alerts.map (phase1fn ex [] now) = σ.alerts.map (fun r => r) from
        map_congr_mem (fun r _ => phase1fn_nil ex now r)]
      simp
    · show σ.nextAlertId = _
      simp [insertCount]
  | cons d ds' ih =>
    intro σ hds hex hlt
    have hpan := (List.pairwise_cons.1 hds).1
    have hds' := (List.pairwise_cons.1 hds).2
    have hstep : updateAlerts ex now (d :: ds') σ =
        updateAlerts ex now ds' (processAlert ex now d σ) := rfl
    rw [hstep]
    cases hk : exKey ex d with
    | some k =>
      rw [processAlert_matched ex now d σ k hk]
      by_cases hcup : k.ContainsUpdates { d with Id := k.Id } = true
      · rw [if_pos hcup]
        obtain ⟨e1, e2⟩ := regenLinks_alerts k.Id { d with Id := k.Id }
          { σ with alerts := (σ.alerts.map (fun r =>
              if r.Id = k.Id then
                xormUpdateAlert true r { d with Id := k.Id, Updated := now, State := k.State }
              else r)) }
        obtain ⟨ha, hn⟩ := ih _ hds' hex (by
          rw [e2]
          exact hlt)
        rw [ha, hn, e1, e2]
        simp only
        constructor
        · rw [List.map_map]
          rw [insertedRules_cons_matched ex now σ.nextAlertId d ds' k hk]
          congr 1
          refine map_congr_mem (fun r _ => ?_)
          have hps := phase1fn_step ex now d ds' k hk hex hpan r
          rw [if_pos hcup] at hps
          exact hps
        · rw [insertCount_cons_matched ex d ds' k hk]
      · rw [if_neg hcup]
        obtain ⟨e1, e2⟩ := regenLinks_alerts k.Id { d with Id := k.Id } σ
        obtain ⟨ha, hn⟩ := ih _ hds' hex (by rw [e2]; exact hlt)
        rw [ha, hn, e1, e2]
        constructor
        · rw [insertedRules_cons_matched ex now σ.nextAlertId d ds' k hk]
          congr 1
          refine map_congr_mem (fun r _ => ?_)
          have hps := phase1fn_step ex now d ds' k hk hex hpan r
          rw [if_neg hcup, ite_self] at hps
          exact hps
        · rw [insertCount_cons_matched ex d ds' k hk]
    | none =>
      rw [processAlert_unmatched ex now d σ hk]
      obtain ⟨e1, e2⟩ := regenLinks_alerts σ.nextAlertId (insertRow now σ.nextAlertId d)
        { σ with
            alerts := σ.alerts ++ [insertRow now σ.nextAlertId d]
            nextAlertId := σ.nextAlertId + 1 }
      obtain ⟨ha, hn⟩ := ih _ hds' hex (by
        rw [e2]
        exact fun kk hkk => Nat.lt_succ_of_lt (hlt kk hkk))
      rw [ha, hn, e1, e2]
      simp only
      constructor
      · rw [List.map_append]
        rw [insertedRules_cons_unmatched ex now σ.nextAlertId d ds' hk]
        have hrow : (insertRow now σ.nextAlertId d).Id = σ.nextAlertId := rfl
        have hfresh : phase1fn ex ds' now (insertRow now σ.nextAlertId d) =
            insertRow now σ.nextAlertId d :=
          phase1fn_fresh ex ds' now _ (fun kk hkk => by
            rw [hrow]
            exact Nat.ne_of_lt (hlt kk hkk))
        simp only [List.map_cons, List.map_nil, hfresh]
        rw [List.append_assoc]
        congr 1
        exact map_congr_mem (fun r _ => (phase1fn_step_none ex now d ds' hk r).symm)
      · rw [insertCount_cons_unmatched ex d ds' hk]
        omega

end Grafana

namespace Grafana

theorem filter_congr_mem {α : Type} {p q : α → Bool} :
    ∀ {l : List α}, (∀ x ∈ l, p x = q x) → l.filter p = l.filter q := by
  intro l
  induction l with
  | nil => intro _; rfl
  | cons x t ih =>
    intro h
    rw [List.filter_cons, List.filter_cons,
      h x (List.mem_cons_self x t), ih (fun a ha => h a (List.mem_cons_of_mem x ha))]

theorem find?_congr_mem {α : Type} {p q : α → Bool} :
    ∀ {l : List α}, (∀ x ∈ l, p x = q x) → l.find? p = l.find? q := by
  intro l
  induction l with
  | nil => intro _; rfl
  | cons x t ih =>
    intro h
    cases hx : q x with
    | true =>
      rw [List.find?_cons_of_pos _ (by rw [h x (List.mem_cons_self x t)]; exact hx),
        List.find?_cons_of_pos _ hx]
    | false =>
      rw [List.find?_cons_of_neg _ (by rw [h x (List.mem_cons_self x t)]; simp [hx]),
        List.find?_cons_of_neg _ (by simp [hx])]
      exact ih (fun a ha => h a (List.mem_cons_of_mem x ha))

/-- The deleteMissingAlerts criterion: no incoming alert shares the
panel. -/
def missingB (ds : List Alert) (e : Alert) : Bool :=
  !(ds.any (fun k => decide (e.PanelId = k.PanelId)))

theorem deleteMissing_alerts_shape (ds : List Alert) :
    ∀ (ex : List Alert) (σ : Store),
      (deleteMissingAlerts ex ds σ).alerts =
        σ.alerts.filter (fun v => ex.all (fun e => !(missingB ds e) || decide (v.Id ≠ e.Id))) := by
  intro ex
  induction ex with
  | nil =>
    intro σ
    show σ.alerts = _
    rw [show (fun (v : Alert) => List.all [] (fun e => !(missingB ds e) || decide (v.Id ≠ e.Id)))
        = (fun _ => true) from rfl]
    simp
  | cons e tl ih =>
    intro σ
    rw [deleteMissingAlerts_cons]
    by_cases hm : ds.any (fun k => decide (e.PanelId = k.PanelId)) = true
    · rw [if_pos hm, ih σ]
      refine filter_congr_mem (fun v _ => ?_)
      simp [List.all_cons, missingB, hm]
    · rw [if_neg hm, ih _]
      rw [show (deleteAlertByIdInternal e.Id σ).alerts
          = σ.alerts.filter (fun a => decide (a.Id ≠ e.Id)) from rfl]
      rw [List.filter_filter]
      refine filter_congr_mem (fun v _ => ?_)
      have hm' : ds.any (fun k => decide (e.PanelId = k.PanelId)) = false :=
        Bool.not_eq_true _ ▸ (by simpa using hm)
      simp [List.all_cons, missingB, hm', Bool.and_comm]

theorem deleteMissing_nextAlertId (ds : List Alert) :
    ∀ (ex : List Alert) (σ : Store),
      (deleteMissingAlerts ex ds σ).nextAlertId = σ.nextAlertId ∧
      (deleteMissingAlerts ex ds σ).tags = σ.tags ∧
      (deleteMissingAlerts ex ds σ).nextTagId = σ.nextTagId ∧
      (deleteMissingAlerts ex ds σ).notifChannels = σ.notifChannels ∧
      (deleteMissingAlerts ex ds σ).dashboards = σ.dashboards := by
  intro ex
  induction ex with
  | nil => intro σ; exact ⟨rfl, rfl, rfl, rfl, rfl⟩
  | cons e tl ih =>
    intro σ
    rw [deleteMissingAlerts_cons]
    split
    · exact ih σ
    · exact ih _

theorem insertedRules_mem_ge (ex : List Alert) (now : Nat) :
    ∀ (ds : List Alert) (n : Nat) (x : Alert), x ∈ insertedRules ex now n ds → n ≤ x.Id := by
  intro ds
  induction ds with
  | nil => intro n x hx; cases hx
  | cons d ds' ih =>
    intro n x hx
    cases hk : exKey ex d with
    | some k =>
      rw [insertedRules_cons_matched ex now n d ds' k hk] at hx
      exact ih n x hx
    | none =>
      rw [insertedRules_cons_unmatched ex now n d ds' hk] at hx
      rcases List.mem_cons.1 hx with rfl | hx'
      · exact Nat.le_refl _
      · exact Nat.le_of_succ_le (ih (n + 1) x hx')

end Grafana

namespace Grafana

theorem pairwise_panel_unique {l : List Alert}
    (h : l.Pairwise (fun a b => a.PanelId ≠ b.PanelId)) {a b : Alert}
    (ha : a ∈ l) (hb : b ∈ l) (hid : a.PanelId = b.PanelId) : a = b := by
  induction l with
  | nil => cases ha
  | cons c t ih =>
    rw [List.pairwise_cons] at h
    rcases List.mem_cons.1 ha with rfl | ha'
    · rcases List.mem_cons.1 hb with rfl | hb'
      · rfl
      · exact absurd hid (h.1 b hb')
    · rcases List.mem_cons.1 hb with rfl | hb'
      · exact absurd hid.symm (h.1 a ha')
      · exact ih h.2 ha' hb'

theorem mem_getByDash {s : Store} {dash : Int} {r : Alert} :
    r ∈ GetAlertsByDashboardId2 dash s ↔ r ∈ s.alerts ∧ r.DashboardId = dash := by
  unfold GetAlertsByDashboardId2
  rw [List.mem_filter]
  simp

theorem getByDash_sublist (s : Store) (dash : Int) :
    (GetAlertsByDashboardId2 dash s).Sublist s.alerts :=
  List.filter_sublist _

theorem exKey_eq_some_self {ex : List Alert} {d r : Alert}
    (hexp : ex.Pairwise (fun a b => a.PanelId ≠ b.PanelId))
    (hr : r ∈ ex) (hpan : d.PanelId = r.PanelId) : exKey ex d = some r := by
  cases hk : exKey ex d with
  | none =>
    unfold exKey at hk
    rw [List.find?_eq_none] at hk
    exact absurd (by simpa using hpan) (hk r hr)
  | some k =>
    have hkp := exKey_panel hk
    have : k = r := pairwise_panel_unique hexp (exKey_mem hk) hr (by rw [← hkp, hpan])
    rw [this]

theorem dMatch_panel {ds : List Alert} {r d : Alert} (h : dMatch ds r = some d) :
    d.PanelId = r.PanelId := by
  have := List.find?_some h
  simpa using this

theorem dMatch_mem {ds : List Alert} {r d : Alert} (h : dMatch ds r = some d) :
    d ∈ ds := List.mem_of_find?_eq_some h

/-- On a well-formed store the id-keyed per-row function coincides with
the panel-keyed one: a persisted row of the dashboard is reconciled
against its panel match, every other row is untouched. -/
theorem phase1fn_char (s : Store) (cmd : SaveAlertsCommand) (now : Nat)
    (hwf : StoreWF s)
    (hexp : (GetAlertsByDashboardId2 cmd.DashboardId s).Pairwise
      (fun a b => a.PanelId ≠ b.PanelId))
    (r : Alert) (hr : r ∈ s.alerts) :
    phase1fn (GetAlertsByDashboardId2 cmd.DashboardId s) cmd.Alerts now r =
      (if r.DashboardId = cmd.DashboardId then
        (match dMatch cmd.Alerts r with
         | none => r
         | some d => reconcileRow now r d)
      else r) := by
  by_cases hdash : r.DashboardId = cmd.DashboardId
  · rw [if_pos hdash]
    have hrex : r ∈ GetAlertsByDashboardId2 cmd.DashboardId s :=
      mem_getByDash.2 ⟨hr, hdash⟩
    have hfind : phase1find (GetAlertsByDashboardId2 cmd.DashboardId s) cmd.Alerts r =
        dMatch cmd.Alerts r := by
      unfold phase1find dMatch
      refine find?_congr_mem (fun d _ => ?_)
      cases hk : exKey (GetAlertsByDashboardId2 cmd.DashboardId s) d with
      | none =>
        simp only [Option.map_none', Option.getD_none]
        cases hp : decide (d.PanelId = r.PanelId) with
        | false => rfl
        | true =>
          exfalso
          have hp' : d.PanelId = r.PanelId := of_decide_eq_true hp
          rw [exKey_eq_some_self hexp hrex hp'] at hk
          cases hk
      | some k =>
        simp only [Option.map_some', Option.getD_some]
        have hkmem : k ∈ s.alerts :=
          (getByDash_sublist s cmd.DashboardId).subset (exKey_mem hk)
        cases hkid : decide (k.Id = r.Id) with
        | true =>
          have hkr : k = r := pairwise_id_unique hwf.1 hkmem hr (of_decide_eq_true hkid)
          have : d.PanelId = r.PanelId := by rw [exKey_panel hk, hkr]
          simp [this]
        | false =>
          cases hp : decide (d.PanelId = r.PanelId) with
          | false => rfl
          | true =>
            exfalso
            have hp' : d.PanelId = r.PanelId := of_decide_eq_true hp
            rw [exKey_eq_some_self hexp hrex hp'] at hk
            cases hk
            exact absurd rfl (of_decide_eq_false hkid)
    rw [phase1fn_eq, hfind]
    cases hd : dMatch cmd.Alerts r with
    | none => rfl
    | some d =>
      simp only
      have hkey : exKey (GetAlertsByDashboardId2 cmd.DashboardId s) d = some r :=
        exKey_eq_some_self hexp hrex (dMatch_panel hd)
      rw [applyMatched_some _ now d r r hkey]
      rfl
  · rw [if_neg hdash]
    refine phase1fn_fresh _ cmd.Alerts now r (fun k hk => ?_)
    intro hid
    have hkmem : k ∈ s.alerts := (getByDash_sublist s cmd.DashboardId).subset hk
    have : k = r := pairwise_id_unique hwf.1 hkmem hr hid
    rw [this] at hk
    exact hdash (mem_getByDash.1 hk).2

end Grafana

namespace Grafana

theorem reconcileRow_id (now : Nat) (old d : Alert) :
    (reconcileRow now old d).Id = old.Id := by
  unfold reconcileRow
  split
  · rfl
  · rfl

theorem map_filter_eq_filterMap {φ : Alert → Alert} {P : Alert → Bool}
    {F : Alert → Option Alert} :
    ∀ {l : List Alert},
      (∀ r ∈ l, (P (φ r) = true ∧ F r = some (φ r)) ∨ (P (φ r) = false ∧ F r = none)) →
      (l.map φ).filter P = l.filterMap F := by
  intro l
  induction l with
  | nil => intro _; rfl
  | cons x t ih =>
    intro h
    rw [List.map_cons, List.filter_cons, List.filterMap_cons]
    rcases h x (List.mem_cons_self x t) with ⟨h1, h2⟩ | ⟨h1, h2⟩
    · rw [h1, h2, if_pos rfl, ih (fun a ha => h a (List.mem_cons_of_mem x ha))]
    · rw [h1, h2]
      simp only [Bool.false_eq_true, if_false]
      exact ih (fun a ha => h a (List.mem_cons_of_mem x ha))

theorem missingB_false_of_dMatch {ds : List Alert} {r d : Alert}
    (h : dMatch ds r = some d) : missingB ds r = false := by
  unfold missingB
  have hany : ds.any (fun k => decide (r.PanelId = k.PanelId)) = true :=
    List.any_eq_true.2 ⟨d, dMatch_mem h, by simpa using (dMatch_panel h).symm⟩
  rw [hany]
  rfl

theorem missingB_true_of_dMatch_none {ds : List Alert} {r : Alert}
    (h : dMatch ds r = none) : missingB ds r = true := by
  unfold dMatch at h
  rw [List.find?_eq_none] at h
  unfold missingB
  cases hany : ds.any (fun k => decide (r.PanelId = k.PanelId)) with
  | false => rfl
  | true =>
    exfalso
    obtain ⟨k, hk, hkp⟩ := List.any_eq_true.1 hany
    exact h k hk (by simpa using (of_decide_eq_true hkp).symm)

theorem SaveAlerts_eq (now : Nat) (cmd : SaveAlertsCommand) (s : Store) :
    SaveAlerts now cmd s =
      deleteMissingAlerts (GetAlertsByDashboardId2 cmd.DashboardId s) cmd.Alerts
        (updateAlerts (GetAlertsByDashboardId2 cmd.DashboardId s) now cmd.Alerts s) := rfl

/-- The central reconciliation theorem: on a well-formed store SaveAlerts
leaves exactly the rule table described by reconciledRules, and advances
the id sequence by the number of inserted rules. -/
theorem SaveAlerts_shape (now : Nat) (cmd : SaveAlertsCommand) (s : Store)
    (hwf : StoreWF s) (hpw : PanelsWF cmd s) :
    (SaveAlerts now cmd s).alerts = reconciledRules now cmd s ∧
    (SaveAlerts now cmd s).nextAlertId =
      s.nextAlertId + insertCount (GetAlertsByDashboardId2 cmd.DashboardId s) cmd.Alerts := by
  have hsub := getByDash_sublist s cmd.DashboardId
  have hexids : (GetAlertsByDashboardId2 cmd.DashboardId s).Pairwise
      (fun a b => a.Id ≠ b.Id) := hwf.1.sublist hsub
  have hlt : ∀ k ∈ GetAlertsByDashboardId2 cmd.DashboardId s, k.Id < s.nextAlertId :=
    fun k hk => hwf.2 k (hsub.subset hk)
  obtain ⟨hA, hN⟩ := updateAlerts_shape (GetAlertsByDashboardId2 cmd.DashboardId s) now
    cmd.Alerts s hpw.1 hexids hlt
  rw [SaveAlerts_eq]
  constructor
  · rw [deleteMissing_alerts_shape, hA, List.filter_append]
    unfold reconciledRules
    congr 1
    · refine map_filter_eq_filterMap (fun r hr => ?_)
      have hφr := phase1fn_char s cmd now hwf hpw.2 r hr
      have hφid : (phase1fn (GetAlertsByDashboardId2 cmd.DashboardId s) cmd.Alerts now r).Id
          = r.Id := phase1fn_id _ _ _ _
      by_cases hdash : r.DashboardId = cmd.DashboardId
      · rw [if_pos hdash] at hφr
        cases hd : dMatch cmd.Alerts r with
        | none =>
          rw [hd] at hφr
          right
          constructor
          · have hrex : r ∈ GetAlertsByDashboardId2 cmd.DashboardId s :=
              mem_getByDash.2 ⟨hr, hdash⟩
            cases hall : (GetAlertsByDashboardId2 cmd.DashboardId s).all
                (fun e => !(missingB cmd.Alerts e) ||
                  decide ((phase1fn (GetAlertsByDashboardId2 cmd.DashboardId s)
                    cmd.Alerts now r).Id ≠ e.Id)) with
            | false => rfl
            | true =>
              exfalso
              have hfr := List.all_eq_true.1 hall r hrex
              rw [hφid, missingB_true_of_dMatch_none hd] at hfr
              simp at hfr
          · unfold reconcileF
            rw [if_pos hdash, hd]
        | some d =>
          rw [hd] at hφr
          left
          constructor
          · rw [List.all_eq_true]
            intro e he
            by_cases hide : e.Id = r.Id
            · have hesr : e = r :=
                pairwise_id_unique hwf.1 (hsub.subset he) hr hide
              rw [hφid, hesr, missingB_false_of_dMatch hd]
              simp
            · have hne : r.Id ≠ e.Id := fun h => hide h.symm
              rw [hφid]
              simp [hne]
          · unfold reconcileF
            rw [if_pos hdash, hd, hφr]
      · rw [if_neg hdash] at hφr
        left
        constructor
        · rw [List.all_eq_true]
          intro e he
          by_cases hide : e.Id = r.Id
          · exfalso
            have hesr : e = r :=
              pairwise_id_unique hwf.1 (hsub.subset he) hr hide
            rw [hesr] at he
            exact hdash (mem_getByDash.1 he).2
          · have hne : r.Id ≠ e.Id := fun h => hide h.symm
            rw [hφid]
            simp [hne]
        · unfold reconcileF
          rw [if_neg hdash, hφr]
    · rw [List.filter_eq_self.2]
      intro x hx
      have hge := insertedRules_mem_ge _ now cmd.Alerts s.nextAlertId x hx
      rw [List.all_eq_true]
      intro e he
      have hlt' := hlt e he
      have : x.Id ≠ e.Id := by omega
      simp [this]
  · rw [(deleteMissing_nextAlertId cmd.Alerts _ _).1, hN]

end Grafana

namespace Grafana

theorem reconcileF_id {now : Nat} {cmd : SaveAlertsCommand} {r x : Alert}
    (h : reconcileF now cmd r = some x) : x.Id = r.Id := by
  unfold reconcileF at h
  by_cases hdash : r.DashboardId = cmd.DashboardId
  · rw [if_pos hdash] at h
    cases hd : dMatch cmd.Alerts r with
    | none => rw [hd] at h; cases h
    | some d =>
      rw [hd] at h
      cases h
      exact reconcileRow_id now r d
  · rw [if_neg hdash] at h
    cases h
    rfl

theorem dMatch_eq_some_self {ds : List Alert} {r d : Alert}
    (hdsp : ds.Pairwise (fun a b => a.PanelId ≠ b.PanelId))
    (hd : d ∈ ds) (hpan : d.PanelId = r.PanelId) : dMatch ds r = some d := by
  cases hm : dMatch ds r with
  | none =>
    unfold dMatch at hm
    rw [List.find?_eq_none] at hm
    exact absurd (by simpa using hpan) (hm d hd)
  | some d' =>
    have hdd : d' = d := pairwise_panel_unique hdsp (dMatch_mem hm) hd
      (by rw [dMatch_panel hm, ← hpan])
    rw [hdd]

theorem insertedRules_mem_unmatched (ex : List Alert) (now : Nat) :
    ∀ (ds : List Alert) (n : Nat) (d : Alert), d ∈ ds → exKey ex d = none →
      ∃ i, n ≤ i ∧ insertRow now i d ∈ insertedRules ex now n ds := by
  intro ds
  induction ds with
  | nil => intro n d hd; cases hd
  | cons d0 ds' ih =>
    intro n d hd hk
    rcases List.mem_cons.1 hd with rfl | hd'
    · rw [insertedRules_cons_unmatched ex now n d ds' hk]
      exact ⟨n, Nat.le_refl n, List.mem_cons_self _ _⟩
    · cases hk0 : exKey ex d0 with
      | some k0 =>
        rw [insertedRules_cons_matched ex now n d0 ds' k0 hk0]
        exact ih n d hd' hk
      | none =>
        rw [insertedRules_cons_unmatched ex now n d0 ds' hk0]
        obtain ⟨i, hi, hmem⟩ := ih (n + 1) d hd' hk
        exact ⟨i, Nat.le_of_succ_le hi, List.mem_cons_of_mem _ hmem⟩

/-- The matched-row corollary of SaveAlerts_shape: after reconciliation
the row whose id the matching loop selected holds exactly reconcileRow. -/
theorem SaveAlerts_find_matched (now : Nat) (cmd : SaveAlertsCommand) (s : Store)
    (hwf : StoreWF s) (hpw : PanelsWF cmd s) (d k : Alert) (hd : d ∈ cmd.Alerts)
    (hk : exKey (GetAlertsByDashboardId2 cmd.DashboardId s) d = some k) :
    findAlert (SaveAlerts now cmd s) k.Id = some (reconcileRow now k d) := by
  have hsub := getByDash_sublist s cmd.DashboardId
  have hshape := SaveAlerts_shape now cmd s hwf hpw
  have hkmem : k ∈ s.alerts := hsub.subset (exKey_mem hk)
  obtain ⟨u, w, huw⟩ := List.append_of_mem hkmem
  have hFk : reconcileF now cmd k = some (reconcileRow now k d) := by
    unfold reconcileF
    rw [if_pos (mem_getByDash.1 (exKey_mem hk)).2,
      dMatch_eq_some_self hpw.1 hd (exKey_panel hk)]
  unfold findAlert
  rw [hshape.1]
  unfold reconciledRules
  rw [huw, List.filterMap_append, List.filterMap_cons, hFk]
  have hcross : ∀ a ∈ u, a.Id ≠ k.Id := by
    have hp := hwf.1
    rw [huw] at hp
    have := (List.pairwise_append.1 hp).2.2
    exact fun a ha => this a ha k (List.mem_cons_self k w)
  rw [List.append_assoc, List.find?_append]
  have hnone : (u.filterMap (reconcileF now cmd)).find?
      (fun a => decide (a.Id = k.Id)) = none := by
    rw [List.find?_eq_none]
    intro x hx
    obtain ⟨r, hr, hFr⟩ := List.mem_filterMap.1 hx
    simp only [decide_eq_true_eq]
    rw [reconcileF_id hFr]
    exact hcross r hr
  rw [hnone, Option.none_or]
  show List.find? (fun a => decide (a.Id = k.Id))
      ((reconcileRow now k d :: List.filterMap (reconcileF now cmd) w) ++
        insertedRules (GetAlertsByDashboardId2 cmd.DashboardId s) now
          s.nextAlertId cmd.Alerts)
    = some (reconcileRow now k d)
  rw [List.cons_append]
  rw [List.find?_cons_of_pos _ (by simp [reconcileRow_id])]

/-- C1: on a well-formed store (distinct row ids below the id sequence,
unique panel ids on both sides) one SaveAlerts reconciliation partitions
the persisted rule set of the dashboard by panel id against the incoming
set: a persisted rule whose panel id no incoming alert carries is gone
afterwards; a persisted rule matched by panel is left as reconcileRow —
rewritten only if ContainsUpdates holds, untouched otherwise; and every
unmatched incoming alert is inserted as a fresh row with state Unknown
and created, updated, newStateDate all stamped with now. -/
theorem C1_reconcile_partition (now : Nat) (cmd : SaveAlertsCommand) (s : Store)
    (hwf : StoreWF s) (hpw : PanelsWF cmd s) :
    (∀ e ∈ GetAlertsByDashboardId2 cmd.DashboardId s,
       (∀ d ∈ cmd.Alerts, d.PanelId ≠ e.PanelId) →
       ∀ v ∈ (SaveAlerts now cmd s).alerts, v.Id ≠ e.Id) ∧
    (∀ d ∈ cmd.Alerts, ∀ k,
       exKey (GetAlertsByDashboardId2 cmd.DashboardId s) d = some k →
       findAlert (SaveAlerts now cmd s) k.Id = some (reconcileRow now k d) ∧
       (k.ContainsUpdates { d with Id := k.Id } = false → reconcileRow now k d = k)) ∧
    (∀ d ∈ cmd.Alerts, exKey (GetAlertsByDashboardId2 cmd.DashboardId s) d = none →
       ∃ i, s.nextAlertId ≤ i ∧ insertRow now i d ∈ (SaveAlerts now cmd s).alerts ∧
         (insertRow now i d).State = AlertStateUnknown ∧
         (insertRow now i d).Created = now ∧ (insertRow now i d).Updated = now ∧
         (insertRow now i d).NewStateDate = now) := by
  have hsub := getByDash_sublist s cmd.DashboardId
  have hshape := SaveAlerts_shape now cmd s hwf hpw
  refine ⟨?_, ?_, ?_⟩
  · intro e he hmiss v hv hve
    rw [hshape.1] at hv
    unfold reconciledRules at hv
    rcases List.mem_append.1 hv with hv1 | hv2
    · obtain ⟨r, hr, hFr⟩ := List.mem_filterMap.1 hv1
      have hvid : v.Id = r.Id := reconcileF_id hFr
      have hre : r = e := pairwise_id_unique hwf.1 hr (hsub.subset he) (by rw [← hvid, hve])
      subst hre
      unfold reconcileF at hFr
      rw [if_pos (mem_getByDash.1 he).2] at hFr
      have hdm : dMatch cmd.Alerts r = none := by
        cases hm : dMatch cmd.Alerts r with
        | none => rfl
        | some d =>
          exact absurd (dMatch_panel hm) (hmiss d (dMatch_mem hm))
      rw [hdm] at hFr
      cases hFr
    · have hge := insertedRules_mem_ge _ now cmd.Alerts s.nextAlertId v hv2
      have hlt := hwf.2 e (hsub.subset he)
      omega
  · intro d hd k hk
    exact ⟨SaveAlerts_find_matched now cmd s hwf hpw d k hd hk,
      fun hcup => by unfold reconcileRow; rw [hcup]; simp⟩
  · intro d hd hk
    obtain ⟨i, hi, hmem⟩ := insertedRules_mem_unmatched _ now cmd.Alerts s.nextAlertId d hd hk
    refine ⟨i, hi, ?_, rfl, rfl, rfl, rfl⟩
    rw [hshape.1]
    unfold reconciledRules
    exact List.mem_append.2 (Or.inr hmem)

end Grafana

namespace Grafana

/-- Fixture: desired rule for panel 2, content identical to the persisted
one. -/
def c1d2 : Alert := mkAlertW 0 1 2 "b" AlertStateOK

/-- Fixture: desired rule for panel 3, with a changed name. -/
def c1d3 : Alert := mkAlertW 0 1 3 "c2" AlertStateOK

/-- Fixture: desired rule for panel 4, new on the dashboard. -/
def c1d4 : Alert := mkAlertW 0 1 4 "d" AlertStateOK

/-- Fixture: dashboard 1 with persisted panels 1, 2, 3. -/
def c1store : Store :=
  { storeW with
      alerts := [mkAlertW 1 1 1 "a" AlertStateOK, mkAlertW 2 1 2 "b" AlertStateOK,
                 mkAlertW 3 1 3 "c" AlertStateOK]
      nextAlertId := 4 }

/-- Fixture: the spec's diff example, desired panels 2, 3, 4. -/
def c1cmd : SaveAlertsCommand :=
  { DashboardId := 1, UserId := 0, OrgId := 7, Alerts := [c1d2, c1d3, c1d4] }

theorem C1_reconcile_partition_witness :
    (StoreWF c1store ∧ PanelsWF c1cmd c1store) ∧
    (∀ v ∈ (SaveAlerts 10 c1cmd c1store).alerts, v.Id ≠ 1) ∧
    findAlert (SaveAlerts 10 c1cmd c1store) 3 =
      some (reconcileRow 10 (mkAlertW 3 1 3 "c" AlertStateOK) c1d3) ∧
    (∃ i, 4 ≤ i ∧ insertRow 10 i c1d4 ∈ (SaveAlerts 10 c1cmd c1store).alerts ∧
      (insertRow 10 i c1d4).State = AlertStateUnknown ∧
      (insertRow 10 i c1d4).Created = 10 ∧ (insertRow 10 i c1d4).Updated = 10 ∧
      (insertRow 10 i c1d4).NewStateDate = 10) := by
  have h := C1_reconcile_partition 10 c1cmd c1store ⟨by decide, by decide⟩
    ⟨by decide, by decide⟩
  refine ⟨⟨⟨by decide, by decide⟩, by decide, by decide⟩, ?_, ?_, ?_⟩
  · exact h.1 (mkAlertW 1 1 1 "a" AlertStateOK) (by decide) (by decide)
  · exact (h.2.1 c1d3 (by decide) (mkAlertW 3 1 3 "c" AlertStateOK) (by decide)).1
  · exact h.2.2 c1d4 (by decide) (by decide)

end Grafana

namespace Grafana

/-! ### C4: identity preservation across a matched update (corrected) -/

theorem reconcileRow_state (now : Nat) (k d : Alert) :
    (reconcileRow now k d).State = k.State := by
  unfold reconcileRow
  split
  · unfold xormUpdateAlert
    simp only
    split
    · rfl
    · rfl
  · rfl

theorem reconcileRow_created (now : Nat) (k d : Alert) (h : d.Created = 0) :
    (reconcileRow now k d).Created = k.Created := by
  unfold reconcileRow
  split
  · unfold xormUpdateAlert
    simp [h]
  · rfl

/-- Fixture: a desired rule carrying a caller-supplied nonzero created
stamp and a changed name. -/
def c4d : Alert := { mkAlertW 0 1 1 "b2" AlertStateOK with Created := 7 }

/-- Fixture: dashboard 1 with one rule, created at time 1. -/
def c4store : Store :=
  { storeW with alerts := [mkAlertW 1 1 1 "a" AlertStateOK], nextAlertId := 2 }

/-- Fixture: the reconciliation command sending c4d. -/
def c4cmd : SaveAlertsCommand :=
  { DashboardId := 1, UserId := 0, OrgId := 7, Alerts := [c4d] }

/-- C4 counterexample: the claim says created is preserved regardless of
what the caller supplied, but a caller-supplied nonzero created is
persisted by the update: the stored rule's created changes from 1 to 7. -/
theorem C4_counterexample :
    (findAlert c4store 1).map Alert.Created = some 1 ∧
    (findAlert (SaveAlerts 10 c4cmd c4store) 1).map Alert.Created = some 7 := by
  exact ⟨by decide, by decide⟩

/-- C4 amended: a matched update preserves the persisted id and state
unconditionally; it preserves created provided the caller left the
desired rule's created at its zero value (as SaveAlerts callers do) —
because the storage layer skips zero-valued columns — while a nonzero
caller-supplied created is persisted instead. -/
theorem C4_identity_amended (now : Nat) (cmd : SaveAlertsCommand) (s : Store)
    (hwf : StoreWF s) (hpw : PanelsWF cmd s) :
    ∀ d ∈ cmd.Alerts, ∀ k,
      exKey (GetAlertsByDashboardId2 cmd.DashboardId s) d = some k →
      findAlert (SaveAlerts now cmd s) k.Id = some (reconcileRow now k d) ∧
      (reconcileRow now k d).Id = k.Id ∧
      (reconcileRow now k d).State = k.State ∧
      (d.Created = 0 → (reconcileRow now k d).Created = k.Created) := by
  intro d hd k hk
  exact ⟨SaveAlerts_find_matched now cmd s hwf hpw d k hd hk,
    reconcileRow_id now k d, reconcileRow_state now k d,
    reconcileRow_created now k d⟩

theorem C4_identity_amended_witness :
    (StoreWF c1store ∧ PanelsWF c1cmd c1store ∧ c1d3 ∈ c1cmd.Alerts ∧
     exKey (GetAlertsByDashboardId2 1 c1store) c1d3 =
       some (mkAlertW 3 1 3 "c" AlertStateOK)) ∧
    (findAlert (SaveAlerts 11 c1cmd c1store) 3 =
       some (reconcileRow 11 (mkAlertW 3 1 3 "c" AlertStateOK) c1d3) ∧
     (reconcileRow 11 (mkAlertW 3 1 3 "c" AlertStateOK) c1d3).Id = 3 ∧
     (reconcileRow 11 (mkAlertW 3 1 3 "c" AlertStateOK) c1d3).State = AlertStateOK ∧
     (c1d3.Created = 0 →
       (reconcileRow 11 (mkAlertW 3 1 3 "c" AlertStateOK) c1d3).Created = 1)) := by
  refine ⟨⟨⟨by decide, by decide⟩, ⟨by decide, by decide⟩, by decide, by decide⟩, ?_⟩
  exact C4_identity_amended 11 c1cmd c1store ⟨by decide, by decide⟩
    ⟨by decide, by decide⟩ c1d3 (by decide) (mkAlertW 3 1 3 "c" AlertStateOK) (by decide)

end Grafana

namespace Grafana

/-! ### C5: the meaningful-change write gate (corrected) -/

/-- Fixture: the persisted rule for the C5 counterexample — it has a
settings document. -/
def c5k : Alert := mkAlertW 1 1 1 "a" AlertStateOK

/-- Fixture: a desired rule with the same name and message but no
settings document at all. -/
def c5d : Alert := { mkAlertW 0 1 1 "a" AlertStateOK with Settings := none }

/-- Fixture: the store and command for the C5 counterexample. -/
def c5store : Store :=
  { storeW with alerts := [c5k], nextAlertId := 2 }

/-- Fixture: the reconciliation command sending c5d. -/
def c5cmd : SaveAlertsCommand :=
  { DashboardId := 1, UserId := 0, OrgId := 7, Alerts := [c5d] }

/-- C5 counterexample: the claim says the rule row is written iff name,
message or the settings document differ; here the settings documents
differ (one is present, the other absent) and name and message agree, yet
no write happens: the row keeps its old updated stamp 1 even though the
clock says 10. -/
theorem C5_counterexample :
    c5k.Settings ≠ c5d.Settings ∧ c5k.Name = c5d.Name ∧ c5k.Message = c5d.Message ∧
    findAlert (SaveAlerts 10 c5cmd c5store) 1 = some c5k ∧ c5k.Updated = 1 := by
  exact ⟨by decide, by decide, by decide, by decide, by decide⟩

/-- C5 amended: for a matched pair, the rule row is written iff the name
or the message differ, or both settings documents are present and their
encodings differ — a settings document that is absent on either side is
not compared.  When the gate fires and the clock is nonzero the row is
rewritten through xorm (MustCols message, for) with updated = now; when
it does not fire, the row is left untouched (no timestamp churn). -/
theorem C5_write_gate_amended (now : Nat) (cmd : SaveAlertsCommand) (s : Store)
    (hwf : StoreWF s) (hpw : PanelsWF cmd s) :
    ∀ d ∈ cmd.Alerts, ∀ k,
      exKey (GetAlertsByDashboardId2 cmd.DashboardId s) d = some k →
      (k.ContainsUpdates { d with Id := k.Id } = true ↔
        (k.Name ≠ d.Name ∨ k.Message ≠ d.Message ∨
          (∃ s1 s2, k.Settings = some s1 ∧ d.Settings = some s2 ∧ s1 ≠ s2))) ∧
      (k.ContainsUpdates { d with Id := k.Id } = true → now ≠ 0 →
        findAlert (SaveAlerts now cmd s) k.Id =
          some (xormUpdateAlert true k
            { d with Id := k.Id, Updated := now, State := k.State }) ∧
        (xormUpdateAlert true k
            { d with Id := k.Id, Updated := now, State := k.State }).Updated = now) ∧
      (k.ContainsUpdates { d with Id := k.Id } = false →
        findAlert (SaveAlerts now cmd s) k.Id = some k) := by
  intro d hd k hk
  have hfind := SaveAlerts_find_matched now cmd s hwf hpw d k hd hk
  refine ⟨?_, ?_, ?_⟩
  · unfold Alert.ContainsUpdates
    simp only [Bool.or_eq_true, bne_iff_ne]
    cases hks : k.Settings with
    | none => simp [hks]
    | some s1 =>
      cases hds : d.Settings with
      | none => simp
      | some s2 =>
        simp only [hks, hds, Option.some.injEq, decide_eq_true_eq]
        constructor
        · rintro ((h | h) | h)
          · exact Or.inl h
          · exact Or.inr (Or.inl h)
          · exact Or.inr (Or.inr ⟨s1, s2, rfl, rfl, h⟩)
        · rintro (h | h | ⟨t1, t2, ht1, ht2, hne⟩)
          · exact Or.inl (Or.inl h)
          · exact Or.inl (Or.inr h)
          · cases ht1
            cases ht2
            exact Or.inr hne
  · intro hcup hnow
    constructor
    · rw [hfind]
      unfold reconcileRow
      rw [if_pos hcup]
    · unfold xormUpdateAlert
      simp [hnow]
  · intro hcup
    rw [hfind]
    unfold reconcileRow
    rw [hcup]
    simp

theorem C5_write_gate_amended_witness :
    (StoreWF c1store ∧ PanelsWF c1cmd c1store ∧
     exKey (GetAlertsByDashboardId2 1 c1store) c1d3 =
       some (mkAlertW 3 1 3 "c" AlertStateOK) ∧
     (mkAlertW 3 1 3 "c" AlertStateOK).ContainsUpdates
       { c1d3 with Id := 3 } = true ∧ (11 : Nat) ≠ 0) ∧
    (findAlert (SaveAlerts 11 c1cmd c1store) 3 =
       some (xormUpdateAlert true (mkAlertW 3 1 3 "c" AlertStateOK)
         { c1d3 with Id := 3, Updated := 11, State := AlertStateOK }) ∧
     (xormUpdateAlert true (mkAlertW 3 1 3 "c" AlertStateOK)
       { c1d3 with Id := 3, Updated := 11, State := AlertStateOK }).Updated = 11) := by
  refine ⟨⟨⟨by decide, by decide⟩, ⟨by decide, by decide⟩, by decide, by decide,
    by decide⟩, ?_⟩
  exact (C5_write_gate_amended 11 c1cmd c1store ⟨by decide, by decide⟩
    ⟨by decide, by decide⟩ c1d3 (by decide) (mkAlertW 3 1 3 "c" AlertStateOK)
    (by decide)).2.1 (by decide) (by decide)

end Grafana

namespace Grafana

/-! ### C6: idempotence machinery — structure of the reconciled store -/

theorem insertedRules_mem_lt (ex : List Alert) (now : Nat) :
    ∀ (ds : List Alert) (n : Nat) (x : Alert), x ∈ insertedRules ex now n ds →
      x.Id < n + insertCount ex ds := by
  intro ds
  induction ds with
  | nil => intro n x hx; cases hx
  | cons d ds' ih =>
    intro n x hx
    cases hk : exKey ex d with
    | some k =>
      rw [insertedRules_cons_matched ex now n d ds' k hk] at hx
      rw [insertCount_cons_matched ex d ds' k hk]
      exact ih n x hx
    | none =>
      rw [insertedRules_cons_unmatched ex now n d ds' hk] at hx
      rw [insertCount_cons_unmatched ex d ds' hk]
      rcases List.mem_cons.1 hx with rfl | hx'
      · show n < n + (insertCount ex ds' + 1)
        omega
      · have := ih (n + 1) x hx'
        omega

theorem insertedRules_pairwise (ex : List Alert) (now : Nat) :
    ∀ (ds : List Alert) (n : Nat),
      (insertedRules ex now n ds).Pairwise (fun a b => a.Id ≠ b.Id) := by
  intro ds
  induction ds with
  | nil => intro n; exact List.Pairwise.nil
  | cons d ds' ih =>
    intro n
    cases hk : exKey ex d with
    | some k =>
      rw [insertedRules_cons_matched ex now n d ds' k hk]
      exact ih n
    | none =>
      rw [insertedRules_cons_unmatched ex now n d ds' hk]
      rw [List.pairwise_cons]
      refine ⟨fun x hx => ?_, ih (n + 1)⟩
      have := insertedRules_mem_ge ex now ds' (n + 1) x hx
      show (insertRow now n d).Id ≠ x.Id
      show n ≠ x.Id
      omega

theorem filterMap_pairwise_ids {now : Nat} {cmd : SaveAlertsCommand} {l : List Alert}
    (h : l.Pairwise (fun a b => a.Id ≠ b.Id)) :
    (l.filterMap (reconcileF now cmd)).Pairwise (fun a b => a.Id ≠ b.Id) := by
  induction l with
  | nil => exact List.Pairwise.nil
  | cons x t ih =>
    rw [List.pairwise_cons] at h
    rw [List.filterMap_cons]
    cases hx : reconcileF now cmd x with
    | none => exact ih h.2
    | some v =>
      rw [List.pairwise_cons]
      refine ⟨fun y hy => ?_, ih h.2⟩
      obtain ⟨r, hr, hFr⟩ := List.mem_filterMap.1 hy
      rw [reconcileF_id hx, reconcileF_id hFr]
      exact h.1 r hr

theorem filterMap_ids_lt {now : Nat} {cmd : SaveAlertsCommand} {s : Store}
    (hwf : StoreWF s) {v : Alert}
    (hv : v ∈ s.alerts.filterMap (reconcileF now cmd)) : v.Id < s.nextAlertId := by
  obtain ⟨r, hr, hFr⟩ := List.mem_filterMap.1 hv
  rw [reconcileF_id hFr]
  exact hwf.2 r hr

/-- SaveAlerts preserves store well-formedness. -/
theorem SaveAlerts_StoreWF (now : Nat) (cmd : SaveAlertsCommand) (s : Store)
    (hwf : StoreWF s) (hpw : PanelsWF cmd s) : StoreWF (SaveAlerts now cmd s) := by
  obtain ⟨hA, hN⟩ := SaveAlerts_shape now cmd s hwf hpw
  constructor
  · rw [hA]
    unfold reconciledRules
    rw [List.pairwise_append]
    refine ⟨filterMap_pairwise_ids hwf.1, insertedRules_pairwise _ now cmd.Alerts _, ?_⟩
    intro a ha b hb
    have h1 := filterMap_ids_lt hwf ha
    have h2 := insertedRules_mem_ge _ now cmd.Alerts s.nextAlertId b hb
    omega
  · intro a ha
    rw [hA] at ha
    rw [hN]
    unfold reconciledRules at ha
    rcases List.mem_append.1 ha with h1 | h2
    · have := filterMap_ids_lt hwf h1
      omega
    · exact insertedRules_mem_lt _ now cmd.Alerts s.nextAlertId a h2

end Grafana

namespace Grafana

theorem reconcileRow_panel (now : Nat) {k d : Alert} (h : d.PanelId = k.PanelId) :
    (reconcileRow now k d).PanelId = k.PanelId := by
  unfold reconcileRow
  split
  · unfold xormUpdateAlert
    simp only
    split
    · rfl
    · exact h
  · rfl

theorem reconcileRow_dash (now : Nat) {k d : Alert} (h : d.DashboardId = k.DashboardId) :
    (reconcileRow now k d).DashboardId = k.DashboardId := by
  unfold reconcileRow
  split
  · unfold xormUpdateAlert
    simp only
    split
    · rfl
    · exact h
  · rfl

theorem insertedRules_mem_src (ex : List Alert) (now : Nat) :
    ∀ (ds : List Alert) (n : Nat) (x : Alert), x ∈ insertedRules ex now n ds →
      ∃ i d, d ∈ ds ∧ exKey ex d = none ∧ x = insertRow now i d := by
  intro ds
  induction ds with
  | nil => intro n x hx; cases hx
  | cons d0 ds' ih =>
    intro n x hx
    cases hk : exKey ex d0 with
    | some k =>
      rw [insertedRules_cons_matched ex now n d0 ds' k hk] at hx
      obtain ⟨i, d, hd, hkd, hx⟩ := ih n x hx
      exact ⟨i, d, List.mem_cons_of_mem d0 hd, hkd, hx⟩
    | none =>
      rw [insertedRules_cons_unmatched ex now n d0 ds' hk] at hx
      rcases List.mem_cons.1 hx with rfl | hx'
      · exact ⟨n, d0, List.mem_cons_self d0 ds', hk, rfl⟩
      · obtain ⟨i, d, hd, hkd, hx⟩ := ih (n + 1) x hx'
        exact ⟨i, d, List.mem_cons_of_mem d0 hd, hkd, hx⟩

theorem dMatch_congr_panel {ds : List Alert} {x y : Alert} (h : x.PanelId = y.PanelId) :
    dMatch ds x = dMatch ds y := by
  unfold dMatch
  exact find?_congr_mem (fun d _ => by rw [h])

/-- The value split of reconcileF: either an untouched foreign-dashboard
row, or the reconciliation of a dashboard row against its panel match. -/
theorem reconcileF_cases {now : Nat} {cmd : SaveAlertsCommand} {r v : Alert}
    (h : reconcileF now cmd r = some v) :
    (r.DashboardId ≠ cmd.DashboardId ∧ v = r) ∨
    (r.DashboardId = cmd.DashboardId ∧
      ∃ d, dMatch cmd.Alerts r = some d ∧ v = reconcileRow now r d) := by
  unfold reconcileF at h
  by_cases hdash : r.DashboardId = cmd.DashboardId
  · rw [if_pos hdash] at h
    cases hd : dMatch cmd.Alerts r with
    | none => rw [hd] at h; cases h
    | some d =>
      rw [hd] at h
      cases h
      exact Or.inr ⟨hdash, d, rfl, rfl⟩
  · rw [if_neg hdash] at h
    cases h
    exact Or.inl ⟨hdash, rfl⟩

end Grafana

namespace Grafana

theorem insertedRules_pairwise_panels (ex : List Alert) (now : Nat) :
    ∀ (ds : List Alert),
      ds.Pairwise (fun a b => a.PanelId ≠ b.PanelId) →
      ∀ n, (insertedRules ex now n ds).Pairwise (fun a b => a.PanelId ≠ b.PanelId) := by
  intro ds
  induction ds with
  | nil => intro _ n; exact List.Pairwise.nil
  | cons d0 ds' ih =>
    intro hds n
    rw [List.pairwise_cons] at hds
    cases hk : exKey ex d0 with
    | some k =>
      rw [insertedRules_cons_matched ex now n d0 ds' k hk]
      exact ih hds.2 n
    | none =>
      rw [insertedRules_cons_unmatched ex now n d0 ds' hk]
      rw [List.pairwise_cons]
      refine ⟨fun x hx => ?_, ih hds.2 (n + 1)⟩
      obtain ⟨i, d', hd', -, rfl⟩ := insertedRules_mem_src ex now ds' (n + 1) x hx
      show d0.PanelId ≠ d'.PanelId
      exact hds.1 d' hd'

/-- SaveAlerts preserves the panel-key invariant. -/
theorem SaveAlerts_PanelsWF (now : Nat) (cmd : SaveAlertsCommand) (s : Store)
    (hwf : StoreWF s) (hpw : PanelsWF cmd s) :
    PanelsWF cmd (SaveAlerts now cmd s) := by
  obtain ⟨hA, -⟩ := SaveAlerts_shape now cmd s hwf hpw
  refine ⟨hpw.1, ?_⟩
  unfold GetAlertsByDashboardId2
  rw [hA]
  unfold reconciledRules
  rw [show (fun (a : Alert) => decide (a.DashboardId = cmd.DashboardId))
      = (fun a => decide ((fun b : Alert => b.DashboardId = cmd.DashboardId) a)) from rfl]
  rw [List.pairwise_filter]
  rw [List.pairwise_append]
  refine ⟨?_, ?_, ?_⟩
  · rw [List.pairwise_filterMap]
    have hpp : s.alerts.Pairwise (fun x y =>
        x.DashboardId = cmd.DashboardId → y.DashboardId = cmd.DashboardId →
        x.PanelId ≠ y.PanelId) := by
      have h2 := hpw.2
      unfold GetAlertsByDashboardId2 at h2
      rw [show (fun (a : Alert) => decide (a.DashboardId = cmd.DashboardId))
          = (fun a => decide ((fun b : Alert => b.DashboardId = cmd.DashboardId) a)) from rfl]
        at h2
      exact List.pairwise_filter.1 h2
    refine hpp.imp ?_
    intro r1 r2 hr v1 hv1 v2 hv2 hd1 hd2
    rcases reconcileF_cases hv1 with ⟨hnd1, rfl⟩ | ⟨hrd1, d1, hm1, rfl⟩
    · exact absurd hd1 hnd1
    · rcases reconcileF_cases hv2 with ⟨hnd2, rfl⟩ | ⟨hrd2, d2, hm2, rfl⟩
      · exact absurd hd2 hnd2
      · rw [reconcileRow_panel now (dMatch_panel hm1),
          reconcileRow_panel now (dMatch_panel hm2)]
        exact hr hrd1 hrd2
  · exact (insertedRules_pairwise_panels _ now cmd.Alerts hpw.1 _).imp
      (fun h _ _ => h)
  · intro a ha b hb hda hdb
    obtain ⟨r, hr, hFr⟩ := List.mem_filterMap.1 ha
    obtain ⟨i, d', hd', hkd', rfl⟩ := insertedRules_mem_src _ now cmd.Alerts _ b hb
    rcases reconcileF_cases hFr with ⟨hnd, rfl⟩ | ⟨hrd, d1, hm1, rfl⟩
    · exact absurd hda hnd
    · rw [reconcileRow_panel now (dMatch_panel hm1)]
      show r.PanelId ≠ d'.PanelId
      intro heq
      have hrex : r ∈ GetAlertsByDashboardId2 cmd.DashboardId s :=
        mem_getByDash.2 ⟨hr, hrd⟩
      have := exKey_eq_some_self hpw.2 hrex heq.symm
      rw [this] at hkd'
      cases hkd'

end Grafana

namespace Grafana

/-! #### Idempotence of reconciliation (C6 support) -/

/-- The row id plays no role in ContainsUpdates. -/
theorem containsUpdates_id_irrel (a d : Alert) (j j' : Nat) :
    a.ContainsUpdates { d with Id := j } = a.ContainsUpdates { d with Id := j' } := rfl

/-- After one reconciliation against an incoming alert with a non-empty
name the row no longer differs from it: the write gate is closed on the
next run.  (With an empty incoming name the gate can stay open forever,
because the empty name is never written.) -/
theorem containsUpdates_reconcileRow_false (now : Nat) (k d : Alert) (j : Nat)
    (hn : d.Name ≠ "") :
    (reconcileRow now k d).ContainsUpdates { d with Id := j } = false := by
  unfold reconcileRow
  by_cases hcup : k.ContainsUpdates { d with Id := k.Id } = true
  · rw [if_pos hcup]
    cases hset : d.Settings with
    | none =>
      cases hks : k.Settings with
      | none => simp [Alert.ContainsUpdates, xormUpdateAlert, hn, hset, hks]
      | some sk => simp [Alert.ContainsUpdates, xormUpdateAlert, hn, hset, hks]
    | some sd => simp [Alert.ContainsUpdates, xormUpdateAlert, hn, hset]
  · rw [if_neg hcup]
    rw [containsUpdates_id_irrel k d j k.Id]
    simpa using hcup

/-- A freshly inserted row never differs from its source alert. -/
theorem containsUpdates_insertRow_false (now i : Nat) (d : Alert) (j : Nat) :
    (insertRow now i d).ContainsUpdates { d with Id := j } = false := by
  cases hset : d.Settings with
  | none => simp [Alert.ContainsUpdates, insertRow, hset]
  | some sd => simp [Alert.ContainsUpdates, insertRow, hset]

/-- With the gate closed, reconcileRow is the identity. -/
theorem reconcileRow_of_closed (now : Nat) (v d : Alert)
    (h : v.ContainsUpdates { d with Id := v.Id } = false) :
    reconcileRow now v d = v := by
  unfold reconcileRow
  rw [h]
  rfl

theorem filterMap_id_of_mem {α : Type} (f : α → Option α) :
    ∀ (l : List α), (∀ a ∈ l, f a = some a) → l.filterMap f = l := by
  intro l
  induction l with
  | nil => intro h; rfl
  | cons a l' ih =>
    intro h
    rw [List.filterMap_cons, h a (List.mem_cons_self a l'),
      ih (fun b hb => h b (List.mem_cons_of_mem a hb))]

theorem insertedRules_of_all_matched (ex : List Alert) (now : Nat) :
    ∀ (ds : List Alert), (∀ d ∈ ds, exKey ex d ≠ none) →
      ∀ n, insertedRules ex now n ds = [] := by
  intro ds
  induction ds with
  | nil => intro h n; rfl
  | cons d0 ds' ih =>
    intro h n
    cases hk : exKey ex d0 with
    | some k =>
      rw [insertedRules_cons_matched ex now n d0 ds' k hk]
      exact ih (fun d hd => h d (List.mem_cons_of_mem d0 hd)) n
    | none => exact absurd hk (h d0 (List.mem_cons_self d0 ds'))

theorem insertCount_zero_of_all_matched (ex : List Alert) :
    ∀ (ds : List Alert), (∀ d ∈ ds, exKey ex d ≠ none) → insertCount ex ds = 0 := by
  intro ds
  induction ds with
  | nil => intro h; rfl
  | cons d0 ds' ih =>
    intro h
    cases hk : exKey ex d0 with
    | some k =>
      rw [insertCount_cons_matched ex d0 ds' k hk]
      exact ih (fun d hd => h d (List.mem_cons_of_mem d0 hd))
    | none => exact absurd hk (h d0 (List.mem_cons_self d0 ds'))

end Grafana

namespace Grafana

/-- On the second run every row of the reconciled store is a fixpoint of
reconcileF: matched rows were already rewritten to agree with their
incoming alert (whose name is non-empty), inserted rows agree by
construction, and foreign-dashboard rows are out of scope. -/
theorem reconcileF_run2_fix (now1 now2 : Nat) (cmd : SaveAlertsCommand) (s : Store)
    (hwf : StoreWF s) (hpw : PanelsWF cmd s)
    (H4 : ∀ d ∈ cmd.Alerts, d.DashboardId = cmd.DashboardId)
    (Hn : ∀ d ∈ cmd.Alerts, d.Name ≠ "") :
    ∀ v ∈ (SaveAlerts now1 cmd s).alerts, reconcileF now2 cmd v = some v := by
  intro v hv
  rw [(SaveAlerts_shape now1 cmd s hwf hpw).1] at hv
  unfold reconciledRules at hv
  rcases List.mem_append.1 hv with hvf | hvi
  · obtain ⟨r, hr, hFr⟩ := List.mem_filterMap.1 hvf
    rcases reconcileF_cases hFr with ⟨hnd, rfl⟩ | ⟨hrd, d1, hm1, rfl⟩
    · unfold reconcileF
      rw [if_neg hnd]
    · have hd1 : d1 ∈ cmd.Alerts := dMatch_mem hm1
      have hd1d : d1.DashboardId = r.DashboardId := by rw [H4 d1 hd1, hrd]
      have hvd : (reconcileRow now1 r d1).DashboardId = cmd.DashboardId := by
        rw [reconcileRow_dash now1 hd1d, hrd]
      have hvp : (reconcileRow now1 r d1).PanelId = r.PanelId :=
        reconcileRow_panel now1 (dMatch_panel hm1)
      unfold reconcileF
      rw [if_pos hvd, dMatch_congr_panel hvp, hm1]
      show some (reconcileRow now2 (reconcileRow now1 r d1) d1)
        = some (reconcileRow now1 r d1)
      rw [reconcileRow_of_closed now2 _ d1
        (containsUpdates_reconcileRow_false now1 r d1 _ (Hn d1 hd1))]
  · obtain ⟨i, d', hd', hkd', rfl⟩ := insertedRules_mem_src _ now1 cmd.Alerts _ _ hvi
    have hvd : (insertRow now1 i d').DashboardId = cmd.DashboardId := H4 d' hd'
    unfold reconcileF
    rw [if_pos hvd, dMatch_eq_some_self hpw.1 hd'
      (show d'.PanelId = (insertRow now1 i d').PanelId from rfl)]
    show some (reconcileRow now2 (insertRow now1 i d') d')
      = some (insertRow now1 i d')
    rw [reconcileRow_of_closed now2 _ d' (containsUpdates_insertRow_false now1 i d' _)]

/-- After one run, every incoming alert has a panel-matched persisted row
on the dashboard: no inserts happen on the second run. -/
theorem run2_all_matched (now1 : Nat) (cmd : SaveAlertsCommand) (s : Store)
    (hwf : StoreWF s) (hpw : PanelsWF cmd s)
    (H4 : ∀ d ∈ cmd.Alerts, d.DashboardId = cmd.DashboardId) :
    ∀ d ∈ cmd.Alerts,
      exKey (GetAlertsByDashboardId2 cmd.DashboardId (SaveAlerts now1 cmd s)) d ≠ none := by
  intro d hd
  have hex : ∃ v ∈ (SaveAlerts now1 cmd s).alerts,
      v.DashboardId = cmd.DashboardId ∧ v.PanelId = d.PanelId := by
    cases hk1 : exKey (GetAlertsByDashboardId2 cmd.DashboardId s) d with
    | some k =>
      have hfind := SaveAlerts_find_matched now1 cmd s hwf hpw d k hd hk1
      refine ⟨reconcileRow now1 k d, ?_, ?_, ?_⟩
      · exact List.mem_of_find?_eq_some hfind
      · have hkd : k.DashboardId = cmd.DashboardId :=
          (mem_getByDash.1 (exKey_mem hk1)).2
        rw [reconcileRow_dash now1 (by rw [H4 d hd, hkd]), hkd]
      · rw [reconcileRow_panel now1 (exKey_panel hk1), ← exKey_panel hk1]
    | none =>
      obtain ⟨i, -, hmem⟩ := insertedRules_mem_unmatched
        (GetAlertsByDashboardId2 cmd.DashboardId s) now1 cmd.Alerts s.nextAlertId d hd hk1
      refine ⟨insertRow now1 i d, ?_, H4 d hd, rfl⟩
      rw [(SaveAlerts_shape now1 cmd s hwf hpw).1]
      exact List.mem_append.2 (Or.inr hmem)
  obtain ⟨v, hv, hvd, hvp⟩ := hex
  intro hk
  unfold exKey at hk
  rw [List.find?_eq_none] at hk
  exact hk v (mem_getByDash.2 ⟨hv, hvd⟩) (by simpa using hvp.symm)

end Grafana

namespace Grafana

/-- Fixture: a dashboard with one persisted rule named "a". -/
def c6store : Store :=
  { alerts := [mkAlertW 1 1 1 "a" AlertStateOK], nextAlertId := 2,
    tags := [], nextTagId := 1, ruleTags := [], ruleNotifs := [],
    annotations := [], notifStates := [], notifChannels := [], dashboards := [] }

/-- Fixture: the same panel desired with an EMPTY name. -/
def c6cmd : SaveAlertsCommand :=
  { DashboardId := 1, UserId := 0, OrgId := 7,
    Alerts := [mkAlertW 0 1 1 "" AlertStateOK] }

/-- Fixture: the same panel desired with a changed non-empty name. -/
def c6wcmd : SaveAlertsCommand :=
  { DashboardId := 1, UserId := 0, OrgId := 7,
    Alerts := [mkAlertW 0 1 1 "a2" AlertStateOK] }

/-- C6 counterexample: reconciliation is NOT idempotent in general.  With
a desired rule whose name is empty, the stored name "a" differs from the
desired "" on every run, so ContainsUpdates fires each time, yet the
empty name is never written (xorm skips zero-valued columns); the second
run re-stamps the row's updated timestamp (20) over the first run's (10),
an additional write that changes the row. -/
theorem C6_counterexample :
    (Option.map Alert.Updated (findAlert (SaveAlerts 10 c6cmd c6store) 1) = some 10) ∧
    (Option.map Alert.Updated
      (findAlert (SaveAlerts 20 c6cmd (SaveAlerts 10 c6cmd c6store)) 1) = some 20) ∧
    (SaveAlerts 20 c6cmd (SaveAlerts 10 c6cmd c6store)).alerts
      ≠ (SaveAlerts 10 c6cmd c6store).alerts := by
  refine ⟨by decide, by decide, by decide⟩

/-- C6 (amended): reconciliation IS idempotent on the rule table provided
every desired rule carries a non-empty name and targets the command's
dashboard (and the usual id/panel invariants hold): a second run with the
identical desired set leaves every rule row - including its updated
timestamp and state - and the id sequence exactly as after the first run,
and performs no inserts. -/
theorem C6_idempotent_amended (now1 now2 : Nat) (cmd : SaveAlertsCommand) (s : Store)
    (hwf : StoreWF s) (hpw : PanelsWF cmd s)
    (H4 : ∀ d ∈ cmd.Alerts, d.DashboardId = cmd.DashboardId)
    (Hn : ∀ d ∈ cmd.Alerts, d.Name ≠ "") :
    (SaveAlerts now2 cmd (SaveAlerts now1 cmd s)).alerts
      = (SaveAlerts now1 cmd s).alerts ∧
    (SaveAlerts now2 cmd (SaveAlerts now1 cmd s)).nextAlertId
      = (SaveAlerts now1 cmd s).nextAlertId := by
  have hwf1 : StoreWF (SaveAlerts now1 cmd s) := SaveAlerts_StoreWF now1 cmd s hwf hpw
  have hpw1 : PanelsWF cmd (SaveAlerts now1 cmd s) := SaveAlerts_PanelsWF now1 cmd s hwf hpw
  obtain ⟨hA2, hN2⟩ := SaveAlerts_shape now2 cmd (SaveAlerts now1 cmd s) hwf1 hpw1
  have hmatched := run2_all_matched now1 cmd s hwf hpw H4
  constructor
  · rw [hA2]
    unfold reconciledRules
    rw [insertedRules_of_all_matched _ now2 cmd.Alerts hmatched _, List.append_nil]
    exact filterMap_id_of_mem _ _ (reconcileF_run2_fix now1 now2 cmd s hwf hpw H4 Hn)
  · rw [hN2, insertCount_zero_of_all_matched _ cmd.Alerts hmatched]
    exact Nat.add_zero _

theorem C6_idempotent_amended_witness :
    (SaveAlerts 20 c6wcmd (SaveAlerts 10 c6wcmd c6store)).alerts
      = (SaveAlerts 10 c6wcmd c6store).alerts ∧
    (SaveAlerts 20 c6wcmd (SaveAlerts 10 c6wcmd c6store)).nextAlertId
      = (SaveAlerts 10 c6wcmd c6store).nextAlertId :=
  C6_idempotent_amended 10 20 c6wcmd c6store ⟨by decide, by decide⟩
    ⟨by decide, by decide⟩ (by decide) (by decide)

end Grafana
